import Mathlib

/-!
# Restore orchestration of `internal/databases/mongo/binary/restore.go`

A shallow embedding of `RestoreService.DoRestore` and its helpers
(`fixSystemData`, `recoverFromOplogAsStandalone`, `downloadFilesFromBackup`,
`DownloadFileFromBackup`).

The collaborators (`BackupStorage`, `LocalStorage`, the mongod process starters,
`CreateMongodService`, the mongod service and process methods, the version
compatibility check and `utility.LoggedClose`) are not part of the file; they
are taken as parameters: arbitrary state transformers over an arbitrary world
state `σ`.  Every collaborator call is recorded, with its arguments and its
result, in a trace, so that statements about call order can be made.
`tracelog` output is not recorded.
-/

namespace WalG

/-! ## Errors (`error`, `github.com/pkg/errors`) -/

/-- A non-nil Go `error` value.  `base` is an error produced by a collaborator.
`withMessage` and `withStack` are the two layers of pkg/errors: `withMessage`
holds a cause and a message, `withStack` holds an error and the call stack at
the place of wrapping (the stack itself, which no method used here reads, is
left out).  The Go value `nil` is `none` of `Option Error`. -/
inductive Error where
  | base (msg : String)
  | withMessage (cause : Error) (msg : String)
  | withStack (err : Error)
  deriving DecidableEq, Repr

/-- The `errors.Wrap(err, message)` of pkg/errors, for a non-nil `err` (the only
way `restore.go` calls it): a `withMessage` around `err`, and a `withStack`
around that. -/
def Wrap (err : Error) (message : String) : Error :=
  Error.withStack (Error.withMessage err message)

/-- The `Error()` method: a `withMessage` prints its message, a colon and the
text of its cause; a `withStack` prints the text of the error it holds. -/
def Error.ErrorString : Error → String
  | .base msg => msg
  | .withMessage cause msg => msg ++ ": " ++ cause.ErrorString
  | .withStack err => err.ErrorString

/-- The `Unwrap()` method: the error directly under one layer, if any. -/
def Error.Unwrap : Error → Option Error
  | .base _ => none
  | .withMessage cause _ => some cause
  | .withStack err => some err

/-- The chain of errors reachable by repeated unwrapping, the error itself
first (what `errors.Is` walks). -/
def Error.chain : Error → List Error
  | .base msg => [.base msg]
  | .withMessage cause msg => .withMessage cause msg :: cause.chain
  | .withStack err => .withStack err :: err.chain

/-! ## Data model -/

/-- The `models.Timestamp` stored in the sentinel as `BackupLastTS`; the restore
code only passes it on. -/
structure Timestamp where
  TS : Nat
  Inc : Nat
  deriving DecidableEq, Repr

/-- The part of `models.Backup` (the sentinel) that `restore.go` reads:
`MongoMeta.Version` and `MongoMeta.BackupLastTS`. -/
structure Backup where
  Version : String
  BackupLastTS : Timestamp
  deriving DecidableEq, Repr

/-- One entry of the manifest's `BackupFiles`; `restore.go` reads `Path`. -/
structure BackupFileMeta where
  Path : String
  Size : Nat
  deriving DecidableEq, Repr

/-- One entry of the manifest's `BackupDirectories`. -/
structure BackupDirectoryMeta where
  Path : String
  deriving DecidableEq, Repr

/-- The file manifest `MongodBackupFilesMetadata`. -/
structure MongodBackupFilesMetadata where
  BackupDirectories : List BackupDirectoryMeta
  BackupFiles : List BackupFileMeta
  deriving DecidableEq, Repr

/-- A reader returned by `BackupStorage.CreateReader` (an `io.ReadCloser`),
identified by a handle. -/
structure Reader where
  id : Nat
  deriving DecidableEq, Repr

/-- A started mongod process; `GetURI()` is the field `uri`. -/
structure MongodProcess where
  pid : Nat
  uri : String
  deriving DecidableEq, Repr

/-- The method `MongodProcess.GetURI`. -/
def MongodProcess.GetURI (p : MongodProcess) : String := p.uri

/-- A `MongodService` as returned by `CreateMongodService`. -/
structure MongodService where
  id : Nat
  deriving DecidableEq, Repr

/-- The `context.Context` held by the restore service; only passed on. -/
structure Context where
  id : Nat
  deriving DecidableEq, Repr

/-- The fields of `RestoreService` that are plain data.  `LocalStorage` and
`BackupStorage` are the collaborators below. -/
structure RestoreService where
  Context : Context
  minimalConfigPath : String
  deriving DecidableEq, Repr

deriving instance DecidableEq for Except

/-! ## Collaborators and the call trace -/

/-- One collaborator call together with its arguments and what it returned.
A Go result `error` is an `Option Error`, a result `(T, error)` an
`Except Error T`. -/
inductive Event where
  | DownloadSentinel (res : Except Error Backup)
  | DownloadMongodBackupFilesMetadata (res : Except Error MongodBackupFilesMetadata)
  | EnsureCompatibilityToRestoreMongodVersions (restoreMongodVersion backupMongodVersion : String)
      (res : Option Error)
  | EnsureMongodFsLockFileIsEmpty (res : Option Error)
  | CleanupMongodDBPath (res : Option Error)
  | EnsureEmptyDBPath (res : Option Error)
  | CreateDirectories (dirs : List BackupDirectoryMeta) (res : Option Error)
  | CreateReader (file : BackupFileMeta) (res : Except Error Reader)
  | SaveStreamToMongodFile (reader : Reader) (file : BackupFileMeta) (res : Option Error)
  | LoggedClose (reader : Reader) (errmsg : String)
  | StartMongodWithDisableLogicalSessionCacheRefresh (configPath : String)
      (res : Except Error MongodProcess)
  | StartMongodWithRecoverFromOplogAsStandalone (configPath : String)
      (res : Except Error MongodProcess)
  | CreateMongodService (ctx : Context) (appName : String) (uri : String)
      (res : Except Error MongodService)
  | FixSystemDataAfterRestore (service : MongodService) (lastWriteTS : Timestamp)
      (res : Option Error)
  | Shutdown (service : MongodService) (res : Option Error)
  | Wait (process : MongodProcess) (res : Option Error)
  | FixFileOwnerOfMongodData (res : Option Error)
  deriving DecidableEq

/-- The operations `restore.go` calls and does not define, over a world state
`σ`.  Each may read and change the world and returns what the Go function
returns.  `LoggedClose` is `utility.LoggedClose`, which closes the reader and
returns nothing to its caller. -/
structure Collaborators (σ : Type) where
  DownloadSentinel : σ → Except Error Backup × σ
  DownloadMongodBackupFilesMetadata : σ → Except Error MongodBackupFilesMetadata × σ
  EnsureCompatibilityToRestoreMongodVersions : String → String → σ → Option Error × σ
  EnsureMongodFsLockFileIsEmpty : σ → Option Error × σ
  CleanupMongodDBPath : σ → Option Error × σ
  EnsureEmptyDBPath : σ → Option Error × σ
  CreateDirectories : List BackupDirectoryMeta → σ → Option Error × σ
  CreateReader : BackupFileMeta → σ → Except Error Reader × σ
  SaveStreamToMongodFile : Reader → BackupFileMeta → σ → Option Error × σ
  LoggedClose : Reader → String → σ → σ
  StartMongodWithDisableLogicalSessionCacheRefresh : String → σ → Except Error MongodProcess × σ
  StartMongodWithRecoverFromOplogAsStandalone : String → σ → Except Error MongodProcess × σ
  CreateMongodService : Context → String → String → σ → Except Error MongodService × σ
  FixSystemDataAfterRestore : MongodService → Timestamp → σ → Option Error × σ
  Shutdown : MongodService → σ → Option Error × σ
  Wait : MongodProcess → σ → Option Error × σ
  FixFileOwnerOfMongodData : σ → Option Error × σ

/-- The state threaded through the embedding: the world of the collaborators
and the calls made so far, oldest first. -/
structure State (σ : Type) where
  world : σ
  trace : List Event

/-- Run one collaborator operation on the world and record it. -/
def perform {σ α : Type} (op : σ → α × σ) (ev : α → Event) (st : State σ) : α × State σ :=
  ((op st.world).1, ⟨(op st.world).2, st.trace ++ [ev (op st.world).1]⟩)

/-- Run a collaborator operation that returns nothing and record it. -/
def performUnit {σ : Type} (op : σ → σ) (ev : Event) (st : State σ) : State σ :=
  ⟨op st.world, st.trace ++ [ev]⟩

/-! ## The functions of `restore.go` -/

/-- `RestoreService.DownloadFileFromBackup`: open the reader, defer its
`LoggedClose`, return what `SaveStreamToMongodFile` returns.  The deferred call
runs after the return value is computed and cannot change it. -/
def DownloadFileFromBackup {σ : Type} (c : Collaborators σ) (backupFileMeta : BackupFileMeta)
    (st : State σ) : Option Error × State σ :=
  match perform (c.CreateReader backupFileMeta) (Event.CreateReader backupFileMeta) st with
  | (.error err, st) => (some err, st)
  | (.ok sourceReader, st) =>
    match perform (c.SaveStreamToMongodFile sourceReader backupFileMeta)
        (Event.SaveStreamToMongodFile sourceReader backupFileMeta) st with
    | (res, st) =>
      (res, performUnit (c.LoggedClose sourceReader ("backup file reader " ++ backupFileMeta.Path))
        (Event.LoggedClose sourceReader ("backup file reader " ++ backupFileMeta.Path)) st)

/-- The `for ... range backupFilesMetadata.BackupFiles` loop of
`downloadFilesFromBackup`. -/
def downloadLoop {σ : Type} (c : Collaborators σ) :
    List BackupFileMeta → State σ → Option Error × State σ
  | [], st => (none, st)
  | backupFileMeta :: rest, st =>
    match DownloadFileFromBackup c backupFileMeta st with
    | (some err, st) => (some (Wrap err ("bad backup file " ++ backupFileMeta.Path)), st)
    | (none, st) => downloadLoop c rest st

/-- `RestoreService.downloadFilesFromBackup`. -/
def downloadFilesFromBackup {σ : Type} (c : Collaborators σ)
    (backupFilesMetadata : MongodBackupFilesMetadata) (st : State σ) : Option Error × State σ :=
  match perform c.EnsureEmptyDBPath Event.EnsureEmptyDBPath st with
  | (some err, st) => (some err, st)
  | (none, st) =>
    match perform (c.CreateDirectories backupFilesMetadata.BackupDirectories)
        (Event.CreateDirectories backupFilesMetadata.BackupDirectories) st with
    | (some err, st) => (some err, st)
    | (none, st) => downloadLoop c backupFilesMetadata.BackupFiles st

/-- `RestoreService.fixSystemData`. -/
def fixSystemData {σ : Type} (c : Collaborators σ) (restoreService : RestoreService)
    (sentinel : Backup) (st : State σ) : Option Error × State σ :=
  match perform (c.StartMongodWithDisableLogicalSessionCacheRefresh restoreService.minimalConfigPath)
      (Event.StartMongodWithDisableLogicalSessionCacheRefresh restoreService.minimalConfigPath)
      st with
  | (.error err, st) => (some (Wrap err "unable to start mongod in special mode"), st)
  | (.ok mongodProcess, st) =>
    match perform (c.CreateMongodService restoreService.Context "wal-g restore" mongodProcess.GetURI)
        (Event.CreateMongodService restoreService.Context "wal-g restore" mongodProcess.GetURI)
        st with
    | (.error err, st) => (some (Wrap err "unable to create mongod service"), st)
    | (.ok mongodService, st) =>
      match perform (c.FixSystemDataAfterRestore mongodService sentinel.BackupLastTS)
          (Event.FixSystemDataAfterRestore mongodService sentinel.BackupLastTS) st with
      | (some err, st) => (some err, st)
      | (none, st) =>
        match perform (c.Shutdown mongodService) (Event.Shutdown mongodService) st with
        | (some err, st) => (some err, st)
        | (none, st) => perform (c.Wait mongodProcess) (Event.Wait mongodProcess) st

/-- `RestoreService.recoverFromOplogAsStandalone`. -/
def recoverFromOplogAsStandalone {σ : Type} (c : Collaborators σ)
    (restoreService : RestoreService) (st : State σ) : Option Error × State σ :=
  match perform (c.StartMongodWithRecoverFromOplogAsStandalone restoreService.minimalConfigPath)
      (Event.StartMongodWithRecoverFromOplogAsStandalone restoreService.minimalConfigPath)
      st with
  | (.error err, st) => (some (Wrap err "unable to start mongod in special mode"), st)
  | (.ok mongodProcess, st) =>
    match perform (c.CreateMongodService restoreService.Context "wal-g restore" mongodProcess.GetURI)
        (Event.CreateMongodService restoreService.Context "wal-g restore" mongodProcess.GetURI)
        st with
    | (.error err, st) => (some (Wrap err "unable to create mongod service"), st)
    | (.ok mongodService, st) =>
      match perform (c.Shutdown mongodService) (Event.Shutdown mongodService) st with
      | (some err, st) => (some err, st)
      | (none, st) => perform (c.Wait mongodProcess) (Event.Wait mongodProcess) st

/-- `RestoreService.DoRestore`. -/
def DoRestore {σ : Type} (c : Collaborators σ) (restoreService : RestoreService)
    (restoreMongodVersion : String) (st : State σ) : Option Error × State σ :=
  match perform c.DownloadSentinel Event.DownloadSentinel st with
  | (.error err, st) => (some err, st)
  | (.ok sentinel, st) =>
    match perform c.DownloadMongodBackupFilesMetadata Event.DownloadMongodBackupFilesMetadata
        st with
    | (.error err, st) => (some err, st)
    | (.ok mongodBackupFilesMetadata, st) =>
      match perform (c.EnsureCompatibilityToRestoreMongodVersions restoreMongodVersion
            sentinel.Version)
          (Event.EnsureCompatibilityToRestoreMongodVersions restoreMongodVersion sentinel.Version)
          st with
      | (some err, st) => (some err, st)
      | (none, st) =>
        match perform c.EnsureMongodFsLockFileIsEmpty Event.EnsureMongodFsLockFileIsEmpty st with
        | (some err, st) => (some err, st)
        | (none, st) =>
          match perform c.CleanupMongodDBPath Event.CleanupMongodDBPath st with
          | (some err, st) => (some err, st)
          | (none, st) =>
            match downloadFilesFromBackup c mongodBackupFilesMetadata st with
            | (some err, st) => (some err, st)
            | (none, st) =>
              match fixSystemData c restoreService sentinel st with
              | (some err, st) => (some err, st)
              | (none, st) =>
                match recoverFromOplogAsStandalone c restoreService st with
                | (some err, st) => (some err, st)
                | (none, st) =>
                  perform c.FixFileOwnerOfMongodData Event.FixFileOwnerOfMongodData st

/-- A restore run from a given world with an empty trace: the returned error
and the calls made. -/
def restore {σ : Type} (c : Collaborators σ) (restoreService : RestoreService)
    (restoreMongodVersion : String) (world : σ) : Option Error × List Event :=
  ((DoRestore c restoreService restoreMongodVersion ⟨world, []⟩).1,
   (DoRestore c restoreService restoreMongodVersion ⟨world, []⟩).2.trace)

/-! ## Shapes of call traces -/

/-- The calls of one file transfer whose reader opens: open, save (with the
result of the save), close. -/
def fileCalls (f : BackupFileMeta) (r : Reader) (res : Option Error) : List Event :=
  [Event.CreateReader f (.ok r), Event.SaveStreamToMongodFile r f res,
   Event.LoggedClose r ("backup file reader " ++ f.Path)]

/-- The calls of a run of file transfers that all succeed, each file paired
with the reader that was opened for it. -/
def filesOk : List (BackupFileMeta × Reader) → List Event
  | [] => []
  | p :: rest => fileCalls p.1 p.2 none ++ filesOk rest

/-- The calls up to the manifest, both fetched. -/
def fetched (s : Backup) (m : MongodBackupFilesMetadata) : List Event :=
  [Event.DownloadSentinel (.ok s), Event.DownloadMongodBackupFilesMetadata (.ok m)]

/-- The calls up to the compatibility check, passed. -/
def compatible (v : String) (s : Backup) (m : MongodBackupFilesMetadata) : List Event :=
  fetched s m ++ [Event.EnsureCompatibilityToRestoreMongodVersions v s.Version none]

/-- The calls up to the lock-file check, passed. -/
def unlocked (v : String) (s : Backup) (m : MongodBackupFilesMetadata) : List Event :=
  compatible v s m ++ [Event.EnsureMongodFsLockFileIsEmpty none]

/-- The calls up to the creation of the manifest directories, all passed. -/
def prepared (v : String) (s : Backup) (m : MongodBackupFilesMetadata) : List Event :=
  unlocked v s m ++ [Event.CleanupMongodDBPath none, Event.EnsureEmptyDBPath none,
    Event.CreateDirectories m.BackupDirectories none]

/-- The calls up to the end of the file transfer, all passed. -/
def transferred (v : String) (s : Backup) (m : MongodBackupFilesMetadata)
    (fr : List (BackupFileMeta × Reader)) : List Event :=
  prepared v s m ++ filesOk fr

/-- The first two calls of `fixSystemData`, both passed: the engine start and
the service creation on the URI of the started process. -/
def fixStarted (rs : RestoreService) (p : MongodProcess) (svc : MongodService) : List Event :=
  [Event.StartMongodWithDisableLogicalSessionCacheRefresh rs.minimalConfigPath (.ok p),
   Event.CreateMongodService rs.Context "wal-g restore" p.GetURI (.ok svc)]

/-- The calls of a whole `fixSystemData` in which only `Wait` may fail. -/
def fixCalls (rs : RestoreService) (s : Backup) (p : MongodProcess) (svc : MongodService)
    (res : Option Error) : List Event :=
  fixStarted rs p svc ++ [Event.FixSystemDataAfterRestore svc s.BackupLastTS none,
    Event.Shutdown svc none, Event.Wait p res]

/-- The first two calls of `recoverFromOplogAsStandalone`, both passed. -/
def recoverStarted (rs : RestoreService) (p : MongodProcess) (svc : MongodService) :
    List Event :=
  [Event.StartMongodWithRecoverFromOplogAsStandalone rs.minimalConfigPath (.ok p),
   Event.CreateMongodService rs.Context "wal-g restore" p.GetURI (.ok svc)]

/-- The calls of a whole `recoverFromOplogAsStandalone` in which only `Wait` may
fail. -/
def recoverCalls (rs : RestoreService) (p : MongodProcess) (svc : MongodService)
    (res : Option Error) : List Event :=
  recoverStarted rs p svc ++ [Event.Shutdown svc none, Event.Wait p res]

/-- What `DownloadFileFromBackup` does for a file: its result and its calls. -/
inductive FileExec (f : BackupFileMeta) : Option Error → List Event → Prop
  | readerFail (e : Error) : FileExec f (some e) [Event.CreateReader f (.error e)]
  | saved (r : Reader) (res : Option Error) : FileExec f res (fileCalls f r res)

/-- What the loop over the manifest files does: its result and its calls. -/
inductive LoopExec (files : List BackupFileMeta) : Option Error → List Event → Prop
  | done (fr : List (BackupFileMeta × Reader)) (h : files = fr.map Prod.fst) :
      LoopExec files none (filesOk fr)
  | failed (fr : List (BackupFileMeta × Reader)) (f : BackupFileMeta)
      (rest : List BackupFileMeta) (e : Error) (evs : List Event)
      (h : files = fr.map Prod.fst ++ f :: rest) (hf : FileExec f (some e) evs) :
      LoopExec files (some (Wrap e ("bad backup file " ++ f.Path))) (filesOk fr ++ evs)

/-- What `fixSystemData` does: its result and its calls. -/
inductive FixExec (rs : RestoreService) (s : Backup) : Option Error → List Event → Prop
  | startFail (e : Error) :
      FixExec rs s (some (Wrap e "unable to start mongod in special mode"))
        [Event.StartMongodWithDisableLogicalSessionCacheRefresh rs.minimalConfigPath (.error e)]
  | serviceFail (p : MongodProcess) (e : Error) :
      FixExec rs s (some (Wrap e "unable to create mongod service"))
        [Event.StartMongodWithDisableLogicalSessionCacheRefresh rs.minimalConfigPath (.ok p),
         Event.CreateMongodService rs.Context "wal-g restore" p.GetURI (.error e)]
  | fixFail (p : MongodProcess) (svc : MongodService) (e : Error) :
      FixExec rs s (some e)
        (fixStarted rs p svc ++ [Event.FixSystemDataAfterRestore svc s.BackupLastTS (some e)])
  | shutdownFail (p : MongodProcess) (svc : MongodService) (e : Error) :
      FixExec rs s (some e)
        (fixStarted rs p svc ++ [Event.FixSystemDataAfterRestore svc s.BackupLastTS none,
          Event.Shutdown svc (some e)])
  | waited (p : MongodProcess) (svc : MongodService) (res : Option Error) :
      FixExec rs s res (fixCalls rs s p svc res)

/-- What `recoverFromOplogAsStandalone` does: its result and its calls. -/
inductive RecoverExec (rs : RestoreService) : Option Error → List Event → Prop
  | startFail (e : Error) :
      RecoverExec rs (some (Wrap e "unable to start mongod in special mode"))
        [Event.StartMongodWithRecoverFromOplogAsStandalone rs.minimalConfigPath (.error e)]
  | serviceFail (p : MongodProcess) (e : Error) :
      RecoverExec rs (some (Wrap e "unable to create mongod service"))
        [Event.StartMongodWithRecoverFromOplogAsStandalone rs.minimalConfigPath (.ok p),
         Event.CreateMongodService rs.Context "wal-g restore" p.GetURI (.error e)]
  | shutdownFail (p : MongodProcess) (svc : MongodService) (e : Error) :
      RecoverExec rs (some e) (recoverStarted rs p svc ++ [Event.Shutdown svc (some e)])
  | waited (p : MongodProcess) (svc : MongodService) (res : Option Error) :
      RecoverExec rs res (recoverCalls rs p svc res)

/-- Every way a restore can go: the returned error and the calls made, one
constructor for each place where `DoRestore` returns. -/
inductive Exec (rs : RestoreService) (v : String) : Option Error → List Event → Prop
  | sentinelFail (e : Error) : Exec rs v (some e) [Event.DownloadSentinel (.error e)]
  | manifestFail (s : Backup) (e : Error) :
      Exec rs v (some e)
        [Event.DownloadSentinel (.ok s), Event.DownloadMongodBackupFilesMetadata (.error e)]
  | compatFail (s : Backup) (m : MongodBackupFilesMetadata) (e : Error) :
      Exec rs v (some e)
        (fetched s m ++ [Event.EnsureCompatibilityToRestoreMongodVersions v s.Version (some e)])
  | lockFail (s : Backup) (m : MongodBackupFilesMetadata) (e : Error) :
      Exec rs v (some e) (compatible v s m ++ [Event.EnsureMongodFsLockFileIsEmpty (some e)])
  | cleanupFail (s : Backup) (m : MongodBackupFilesMetadata) (e : Error) :
      Exec rs v (some e) (unlocked v s m ++ [Event.CleanupMongodDBPath (some e)])
  | emptyFail (s : Backup) (m : MongodBackupFilesMetadata) (e : Error) :
      Exec rs v (some e)
        (unlocked v s m ++ [Event.CleanupMongodDBPath none, Event.EnsureEmptyDBPath (some e)])
  | directoriesFail (s : Backup) (m : MongodBackupFilesMetadata) (e : Error) :
      Exec rs v (some e)
        (unlocked v s m ++ [Event.CleanupMongodDBPath none, Event.EnsureEmptyDBPath none,
          Event.CreateDirectories m.BackupDirectories (some e)])
  | readerFail (s : Backup) (m : MongodBackupFilesMetadata)
      (fr : List (BackupFileMeta × Reader)) (f : BackupFileMeta) (rest : List BackupFileMeta)
      (e : Error) (h : m.BackupFiles = fr.map Prod.fst ++ f :: rest) :
      Exec rs v (some (Wrap e ("bad backup file " ++ f.Path)))
        (transferred v s m fr ++ [Event.CreateReader f (.error e)])
  | saveFail (s : Backup) (m : MongodBackupFilesMetadata)
      (fr : List (BackupFileMeta × Reader)) (f : BackupFileMeta) (rest : List BackupFileMeta)
      (r : Reader) (e : Error) (h : m.BackupFiles = fr.map Prod.fst ++ f :: rest) :
      Exec rs v (some (Wrap e ("bad backup file " ++ f.Path)))
        (transferred v s m fr ++ fileCalls f r (some e))
  | fixStartFail (s : Backup) (m : MongodBackupFilesMetadata)
      (fr : List (BackupFileMeta × Reader)) (e : Error) (h : m.BackupFiles = fr.map Prod.fst) :
      Exec rs v (some (Wrap e "unable to start mongod in special mode"))
        (transferred v s m fr ++
          [Event.StartMongodWithDisableLogicalSessionCacheRefresh rs.minimalConfigPath
            (.error e)])
  | fixServiceFail (s : Backup) (m : MongodBackupFilesMetadata)
      (fr : List (BackupFileMeta × Reader)) (p : MongodProcess) (e : Error)
      (h : m.BackupFiles = fr.map Prod.fst) :
      Exec rs v (some (Wrap e "unable to create mongod service"))
        (transferred v s m fr ++
          [Event.StartMongodWithDisableLogicalSessionCacheRefresh rs.minimalConfigPath (.ok p),
           Event.CreateMongodService rs.Context "wal-g restore" p.GetURI (.error e)])
  | fixFail (s : Backup) (m : MongodBackupFilesMetadata)
      (fr : List (BackupFileMeta × Reader)) (p : MongodProcess) (svc : MongodService)
      (e : Error) (h : m.BackupFiles = fr.map Prod.fst) :
      Exec rs v (some e)
        (transferred v s m fr ++ fixStarted rs p svc ++
          [Event.FixSystemDataAfterRestore svc s.BackupLastTS (some e)])
  | fixShutdownFail (s : Backup) (m : MongodBackupFilesMetadata)
      (fr : List (BackupFileMeta × Reader)) (p : MongodProcess) (svc : MongodService)
      (e : Error) (h : m.BackupFiles = fr.map Prod.fst) :
      Exec rs v (some e)
        (transferred v s m fr ++ fixStarted rs p svc ++
          [Event.FixSystemDataAfterRestore svc s.BackupLastTS none,
           Event.Shutdown svc (some e)])
  | fixWaitFail (s : Backup) (m : MongodBackupFilesMetadata)
      (fr : List (BackupFileMeta × Reader)) (p : MongodProcess) (svc : MongodService)
      (e : Error) (h : m.BackupFiles = fr.map Prod.fst) :
      Exec rs v (some e) (transferred v s m fr ++ fixCalls rs s p svc (some e))
  | recoverStartFail (s : Backup) (m : MongodBackupFilesMetadata)
      (fr : List (BackupFileMeta × Reader)) (p1 : MongodProcess) (svc1 : MongodService)
      (e : Error) (h : m.BackupFiles = fr.map Prod.fst) :
      Exec rs v (some (Wrap e "unable to start mongod in special mode"))
        (transferred v s m fr ++ fixCalls rs s p1 svc1 none ++
          [Event.StartMongodWithRecoverFromOplogAsStandalone rs.minimalConfigPath (.error e)])
  | recoverServiceFail (s : Backup) (m : MongodBackupFilesMetadata)
      (fr : List (BackupFileMeta × Reader)) (p1 : MongodProcess) (svc1 : MongodService)
      (p : MongodProcess) (e : Error) (h : m.BackupFiles = fr.map Prod.fst) :
      Exec rs v (some (Wrap e "unable to create mongod service"))
        (transferred v s m fr ++ fixCalls rs s p1 svc1 none ++
          [Event.StartMongodWithRecoverFromOplogAsStandalone rs.minimalConfigPath (.ok p),
           Event.CreateMongodService rs.Context "wal-g restore" p.GetURI (.error e)])
  | recoverShutdownFail (s : Backup) (m : MongodBackupFilesMetadata)
      (fr : List (BackupFileMeta × Reader)) (p1 : MongodProcess) (svc1 : MongodService)
      (p : MongodProcess) (svc : MongodService) (e : Error)
      (h : m.BackupFiles = fr.map Prod.fst) :
      Exec rs v (some e)
        (transferred v s m fr ++ fixCalls rs s p1 svc1 none ++ recoverStarted rs p svc ++
          [Event.Shutdown svc (some e)])
  | recoverWaitFail (s : Backup) (m : MongodBackupFilesMetadata)
      (fr : List (BackupFileMeta × Reader)) (p1 : MongodProcess) (svc1 : MongodService)
      (p : MongodProcess) (svc : MongodService) (e : Error)
      (h : m.BackupFiles = fr.map Prod.fst) :
      Exec rs v (some e)
        (transferred v s m fr ++ fixCalls rs s p1 svc1 none ++
          recoverCalls rs p svc (some e))
  | finished (s : Backup) (m : MongodBackupFilesMetadata)
      (fr : List (BackupFileMeta × Reader)) (p1 : MongodProcess) (svc1 : MongodService)
      (p2 : MongodProcess) (svc2 : MongodService) (res : Option Error)
      (h : m.BackupFiles = fr.map Prod.fst) :
      Exec rs v res (transferred v s m fr ++ fixCalls rs s p1 svc1 none ++
        recoverCalls rs p2 svc2 none ++ [Event.FixFileOwnerOfMongodData res])

/-! ## Reading a trace -/

/-- The error a recorded call returned, `none` when it returned without error.
`LoggedClose` returns nothing and so never reports one. -/
def Event.failure : Event → Option Error
  | .DownloadSentinel (.error e) => some e
  | .DownloadSentinel (.ok _) => none
  | .DownloadMongodBackupFilesMetadata (.error e) => some e
  | .DownloadMongodBackupFilesMetadata (.ok _) => none
  | .EnsureCompatibilityToRestoreMongodVersions _ _ res => res
  | .EnsureMongodFsLockFileIsEmpty res => res
  | .CleanupMongodDBPath res => res
  | .EnsureEmptyDBPath res => res
  | .CreateDirectories _ res => res
  | .CreateReader _ (.error e) => some e
  | .CreateReader _ (.ok _) => none
  | .SaveStreamToMongodFile _ _ res => res
  | .LoggedClose _ _ => none
  | .StartMongodWithDisableLogicalSessionCacheRefresh _ (.error e) => some e
  | .StartMongodWithDisableLogicalSessionCacheRefresh _ (.ok _) => none
  | .StartMongodWithRecoverFromOplogAsStandalone _ (.error e) => some e
  | .StartMongodWithRecoverFromOplogAsStandalone _ (.ok _) => none
  | .CreateMongodService _ _ _ (.error e) => some e
  | .CreateMongodService _ _ _ (.ok _) => none
  | .FixSystemDataAfterRestore _ _ res => res
  | .Shutdown _ res => res
  | .Wait _ res => res
  | .FixFileOwnerOfMongodData res => res

/-- The calls on `LocalStorage`. -/
def Event.isLocalStorage : Event → Bool
  | .EnsureMongodFsLockFileIsEmpty _ => true
  | .CleanupMongodDBPath _ => true
  | .EnsureEmptyDBPath _ => true
  | .CreateDirectories _ _ => true
  | .SaveStreamToMongodFile _ _ _ => true
  | .FixFileOwnerOfMongodData _ => true
  | _ => false

/-- The calls on `LocalStorage` that delete or write under the data directory
while the files are laid down. -/
def Event.isLocalStorageWrite : Event → Bool
  | .CleanupMongodDBPath _ => true
  | .CreateDirectories _ _ => true
  | .SaveStreamToMongodFile _ _ _ => true
  | _ => false

/-- The calls of a file transfer. -/
def Event.isFileTransfer : Event → Bool
  | .CreateReader _ _ => true
  | .SaveStreamToMongodFile _ _ _ => true
  | .LoggedClose _ _ => true
  | _ => false

/-- The two calls that start a mongod process. -/
def Event.isEngineStart : Event → Bool
  | .StartMongodWithDisableLogicalSessionCacheRefresh _ _ => true
  | .StartMongodWithRecoverFromOplogAsStandalone _ _ => true
  | _ => false

/-- A call that started a mongod process: a start that returned a handle. -/
def Event.isStarted : Event → Bool
  | .StartMongodWithDisableLogicalSessionCacheRefresh _ (.ok _) => true
  | .StartMongodWithRecoverFromOplogAsStandalone _ (.ok _) => true
  | _ => false

/-- A `Wait` on a process handle. -/
def Event.isWait : Event → Bool
  | .Wait _ _ => true
  | _ => false

/-- A call on a mongod service: `FixSystemDataAfterRestore` or `Shutdown`. -/
def Event.isAdminCall : Event → Bool
  | .FixSystemDataAfterRestore _ _ _ => true
  | .Shutdown _ _ => true
  | _ => false

/-- The calls that belong to the two engine stages. -/
def Event.isEngine : Event → Bool
  | .StartMongodWithDisableLogicalSessionCacheRefresh _ _ => true
  | .StartMongodWithRecoverFromOplogAsStandalone _ _ => true
  | .CreateMongodService _ _ _ _ => true
  | .FixSystemDataAfterRestore _ _ _ => true
  | .Shutdown _ _ => true
  | .Wait _ _ => true
  | _ => false

/-- The file a `CreateReader` call was made for. -/
def Event.openedFile : Event → Option BackupFileMeta
  | .CreateReader f _ => some f
  | _ => none

/-- The file a `SaveStreamToMongodFile` call was made for. -/
def Event.writtenFile : Event → Option BackupFileMeta
  | .SaveStreamToMongodFile _ f _ => some f
  | _ => none

/-- The files for which a reader was requested, in call order. -/
def filesOpened (t : List Event) : List BackupFileMeta := t.filterMap Event.openedFile

/-- The files for which a write was requested, in call order. -/
def filesWritten (t : List Event) : List BackupFileMeta := t.filterMap Event.writtenFile

/-- The number of mongod processes started in a trace. -/
def engineStarted (t : List Event) : Nat := t.countP Event.isStarted

/-- The number of `Wait` calls in a trace. -/
def engineWaited (t : List Event) : Nat := t.countP Event.isWait

/-- The error `DoRestore` returns when the recorded call `ev` failed with `e`:
the context that the code adds around `e`, call by call. -/
def returnedFor (ev : Event) (e : Error) : Error :=
  match ev with
  | .CreateReader f _ => Wrap e ("bad backup file " ++ f.Path)
  | .SaveStreamToMongodFile _ f _ => Wrap e ("bad backup file " ++ f.Path)
  | .StartMongodWithDisableLogicalSessionCacheRefresh _ _ =>
    Wrap e "unable to start mongod in special mode"
  | .StartMongodWithRecoverFromOplogAsStandalone _ _ =>
    Wrap e "unable to start mongod in special mode"
  | .CreateMongodService _ _ _ _ => Wrap e "unable to create mongod service"
  | _ => e

/-- The number of `Wait` calls on the process handle `p` in a trace. -/
def waitsOn (p : MongodProcess) (t : List Event) : Nat :=
  t.countP fun ev =>
    match ev with
    | .Wait q _ => decide (q = p)
    | _ => false

/-- The number of `Shutdown` calls on the service `svc` in a trace. -/
def shutdownsOn (svc : MongodService) (t : List Event) : Nat :=
  t.countP fun ev =>
    match ev with
    | .Shutdown q _ => decide (q = svc)
    | _ => false

/-- Every started process handle has been shut down and waited on exactly once
in the trace: the handle has one `Wait`, and a service created on its URI has
one `Shutdown`. -/
def HandlesReleased (t : List Event) : Prop :=
  ∀ (cfg : String) (p : MongodProcess),
    (Event.StartMongodWithDisableLogicalSessionCacheRefresh cfg (.ok p) ∈ t ∨
      Event.StartMongodWithRecoverFromOplogAsStandalone cfg (.ok p) ∈ t) →
    waitsOn p t = 1 ∧
    ∃ ctx app svc, Event.CreateMongodService ctx app p.GetURI (.ok svc) ∈ t ∧
      shutdownsOn svc t = 1

/-- Every failed call is answered with a wrapped error: the returned error is
the failure with some context put around it. -/
def FailuresWrapped (res : Option Error) (t : List Event) : Prop :=
  ∀ ev ∈ t, ∀ e, ev.failure = some e → ∃ context, res = some (Wrap e context)

/-! ## A concrete world -/

/-- The sentinel of the examples. -/
def sampleSentinel : Backup := ⟨"6.0.1", ⟨1700000000, 3⟩⟩

/-- The manifest of the examples: one directory, two files. -/
def sampleManifest : MongodBackupFilesMetadata :=
  ⟨[⟨"journal"⟩], [⟨"data.wt", 4096⟩, ⟨"journal/log1", 512⟩]⟩

/-- The restore service of the examples. -/
def sampleService : RestoreService := ⟨⟨0⟩, "/etc/mongod-minimal.conf"⟩

/-- A world whose state is the number of collaborator calls made so far.  The
call with number `failAt` (counted from 0) fails, every other call succeeds;
the compatibility check also fails when the two versions differ.  Readers,
processes and services are numbered by the call that made them. -/
def scripted (failAt : Nat) : Collaborators Nat where
  DownloadSentinel n :=
    (if n = failAt then .error (.base "sentinel unavailable") else .ok sampleSentinel, n + 1)
  DownloadMongodBackupFilesMetadata n :=
    (if n = failAt then .error (.base "manifest unavailable") else .ok sampleManifest, n + 1)
  EnsureCompatibilityToRestoreMongodVersions a b n :=
    (if n = failAt ∨ a ≠ b then some (.base "incompatible versions") else none, n + 1)
  EnsureMongodFsLockFileIsEmpty n :=
    (if n = failAt then some (.base "mongod.lock is not empty") else none, n + 1)
  CleanupMongodDBPath n := (if n = failAt then some (.base "cleanup failed") else none, n + 1)
  EnsureEmptyDBPath n := (if n = failAt then some (.base "dbPath is not empty") else none, n + 1)
  CreateDirectories _ n := (if n = failAt then some (.base "mkdir failed") else none, n + 1)
  CreateReader _ n := (if n = failAt then .error (.base "no such object") else .ok ⟨n⟩, n + 1)
  SaveStreamToMongodFile _ _ n :=
    (if n = failAt then some (.base "short write") else none, n + 1)
  LoggedClose _ _ n := n + 1
  StartMongodWithDisableLogicalSessionCacheRefresh _ n :=
    (if n = failAt then .error (.base "exec failed") else .ok ⟨n, "mongodb://localhost:27018"⟩,
      n + 1)
  StartMongodWithRecoverFromOplogAsStandalone _ n :=
    (if n = failAt then .error (.base "exec failed") else .ok ⟨n, "mongodb://localhost:27018"⟩,
      n + 1)
  CreateMongodService _ _ _ n :=
    (if n = failAt then .error (.base "connection refused") else .ok ⟨n⟩, n + 1)
  FixSystemDataAfterRestore _ _ n :=
    (if n = failAt then some (.base "fix failed") else none, n + 1)
  Shutdown _ n := (if n = failAt then some (.base "shutdown failed") else none, n + 1)
  Wait _ n := (if n = failAt then some (.base "exit status 1") else none, n + 1)
  FixFileOwnerOfMongodData n := (if n = failAt then some (.base "chown failed") else none, n + 1)

/-- The calls of the two engine stages and of the ownership fix, as far as a
restore gets: one constructor for each place where `DoRestore` returns from
`fixSystemData` on. -/
inductive EngineCalls (rs : RestoreService) (s : Backup) : List Event → Prop
  | notReached : EngineCalls rs s []
  | fixStartFail (e : Error) :
      EngineCalls rs s
        [Event.StartMongodWithDisableLogicalSessionCacheRefresh rs.minimalConfigPath (.error e)]
  | fixServiceFail (p : MongodProcess) (e : Error) :
      EngineCalls rs s
        [Event.StartMongodWithDisableLogicalSessionCacheRefresh rs.minimalConfigPath (.ok p),
         Event.CreateMongodService rs.Context "wal-g restore" p.GetURI (.error e)]
  | fixFail (p : MongodProcess) (svc : MongodService) (e : Error) :
      EngineCalls rs s
        (fixStarted rs p svc ++ [Event.FixSystemDataAfterRestore svc s.BackupLastTS (some e)])
  | fixShutdownFail (p : MongodProcess) (svc : MongodService) (e : Error) :
      EngineCalls rs s
        (fixStarted rs p svc ++ [Event.FixSystemDataAfterRestore svc s.BackupLastTS none,
          Event.Shutdown svc (some e)])
  | fixWaitFail (p : MongodProcess) (svc : MongodService) (e : Error) :
      EngineCalls rs s (fixCalls rs s p svc (some e))
  | recoverStartFail (p1 : MongodProcess) (svc1 : MongodService) (e : Error) :
      EngineCalls rs s
        (fixCalls rs s p1 svc1 none ++
          [Event.StartMongodWithRecoverFromOplogAsStandalone rs.minimalConfigPath (.error e)])
  | recoverServiceFail (p1 : MongodProcess) (svc1 : MongodService) (p : MongodProcess)
      (e : Error) :
      EngineCalls rs s
        (fixCalls rs s p1 svc1 none ++
          [Event.StartMongodWithRecoverFromOplogAsStandalone rs.minimalConfigPath (.ok p),
           Event.CreateMongodService rs.Context "wal-g restore" p.GetURI (.error e)])
  | recoverShutdownFail (p1 : MongodProcess) (svc1 : MongodService) (p : MongodProcess)
      (svc : MongodService) (e : Error) :
      EngineCalls rs s
        (fixCalls rs s p1 svc1 none ++ recoverStarted rs p svc ++ [Event.Shutdown svc (some e)])
  | recoverWaitFail (p1 : MongodProcess) (svc1 : MongodService) (p : MongodProcess)
      (svc : MongodService) (e : Error) :
      EngineCalls rs s (fixCalls rs s p1 svc1 none ++ recoverCalls rs p svc (some e))
  | finished (p1 : MongodProcess) (svc1 : MongodService) (p2 : MongodProcess)
      (svc2 : MongodService) (res : Option Error) :
      EngineCalls rs s
        (fixCalls rs s p1 svc1 none ++ recoverCalls rs p2 svc2 none ++
          [Event.FixFileOwnerOfMongodData res])

/-- Walk a trace with the number of processes started and of `Wait` calls so
far, and check after each call that at most one started process is not waited
on. -/
def prefixesOwned (started waited : Nat) : List Event → Bool
  | [] => true
  | ev :: rest =>
    decide (started + (if ev.isStarted then 1 else 0) ≤
        waited + (if ev.isWait then 1 else 0) + 1) &&
      prefixesOwned (started + (if ev.isStarted then 1 else 0))
        (waited + (if ev.isWait then 1 else 0)) rest

/-! ## The code against the trace shapes -/

theorem perform_spec {σ α : Type} (op : σ → α × σ) (ev : α → Event) (st : State σ) :
    ∃ r st1, perform op ev st = (r, st1) ∧ st1.trace = st.trace ++ [ev r] :=
  ⟨_, _, rfl, rfl⟩

theorem DownloadFileFromBackup_spec {σ : Type} (c : Collaborators σ) (f : BackupFileMeta)
    (st : State σ) :
    ∃ res st1 evs, DownloadFileFromBackup c f st = (res, st1) ∧
      st1.trace = st.trace ++ evs ∧ FileExec f res evs := by
  unfold DownloadFileFromBackup
  obtain ⟨r, st1, h, ht⟩ := perform_spec (c.CreateReader f) (Event.CreateReader f) st
  rw [h]
  cases r with
  | error e => exact ⟨_, _, _, rfl, ht, FileExec.readerFail e⟩
  | ok r =>
    obtain ⟨res, st2, h2, ht2⟩ := perform_spec (c.SaveStreamToMongodFile r f)
      (Event.SaveStreamToMongodFile r f) st1
    simp only [h2]
    refine ⟨_, _, _, rfl, ?_, FileExec.saved r res⟩
    simp [performUnit, ht2, ht, fileCalls]

theorem downloadLoop_spec {σ : Type} (c : Collaborators σ) (files : List BackupFileMeta) :
    ∀ st : State σ, ∃ res st1 evs, downloadLoop c files st = (res, st1) ∧
      st1.trace = st.trace ++ evs ∧ LoopExec files res evs := by
  induction files with
  | nil =>
    intro st
    exact ⟨none, st, [], rfl, by simp, LoopExec.done [] rfl⟩
  | cons f rest ih =>
    intro st
    obtain ⟨res, st1, evs, h, ht, hx⟩ := DownloadFileFromBackup_spec c f st
    unfold downloadLoop
    rw [h]
    cases res with
    | some e =>
      exact ⟨_, _, evs, rfl, ht, by simpa [filesOk] using LoopExec.failed [] f rest e evs rfl hx⟩
    | none =>
      obtain ⟨res2, st2, evs2, h2, ht2, hx2⟩ := ih st1
      simp only [h2]
      cases hx with
      | saved r _ =>
        refine ⟨_, _, fileCalls f r none ++ evs2, rfl, by simp [ht2, ht], ?_⟩
        cases hx2 with
        | done fr hfr =>
          exact LoopExec.done ((f, r) :: fr) (by simp [hfr])
        | failed fr g rest2 e evs3 hfr hg =>
          have hl : LoopExec (f :: rest) _ _ :=
            LoopExec.failed ((f, r) :: fr) g rest2 e evs3 (by simp [hfr]) hg
          simpa [filesOk] using hl

theorem fixSystemData_spec {σ : Type} (c : Collaborators σ) (rs : RestoreService) (s : Backup)
    (st : State σ) :
    ∃ res st1 evs, fixSystemData c rs s st = (res, st1) ∧
      st1.trace = st.trace ++ evs ∧ FixExec rs s res evs := by
  unfold fixSystemData
  obtain ⟨r1, st1, h1, ht1⟩ := perform_spec
    (c.StartMongodWithDisableLogicalSessionCacheRefresh rs.minimalConfigPath)
    (Event.StartMongodWithDisableLogicalSessionCacheRefresh rs.minimalConfigPath) st
  rw [h1]
  cases r1 with
  | error e => exact ⟨_, _, _, rfl, ht1, FixExec.startFail e⟩
  | ok p =>
    obtain ⟨r2, st2, h2, ht2⟩ := perform_spec
      (c.CreateMongodService rs.Context "wal-g restore" p.GetURI)
      (Event.CreateMongodService rs.Context "wal-g restore" p.GetURI) st1
    simp only [h2]
    cases r2 with
    | error e =>
      exact ⟨_, _, _, rfl, by simp [ht2, ht1], FixExec.serviceFail p e⟩
    | ok svc =>
      obtain ⟨r3, st3, h3, ht3⟩ := perform_spec
        (c.FixSystemDataAfterRestore svc s.BackupLastTS)
        (Event.FixSystemDataAfterRestore svc s.BackupLastTS) st2
      simp only [h3]
      cases r3 with
      | some e =>
        refine ⟨_, _, _, rfl, ?_, FixExec.fixFail p svc e⟩
        simp [ht3, ht2, ht1, fixStarted]
      | none =>
        obtain ⟨r4, st4, h4, ht4⟩ := perform_spec (c.Shutdown svc) (Event.Shutdown svc) st3
        simp only [h4]
        cases r4 with
        | some e =>
          refine ⟨_, _, _, rfl, ?_, FixExec.shutdownFail p svc e⟩
          simp [ht4, ht3, ht2, ht1, fixStarted]
        | none =>
          obtain ⟨r5, st5, h5, ht5⟩ := perform_spec (c.Wait p) (Event.Wait p) st4
          simp only [h5]
          refine ⟨_, _, _, rfl, ?_, FixExec.waited p svc r5⟩
          simp [ht5, ht4, ht3, ht2, ht1, fixStarted, fixCalls]

theorem recoverFromOplogAsStandalone_spec {σ : Type} (c : Collaborators σ)
    (rs : RestoreService) (st : State σ) :
    ∃ res st1 evs, recoverFromOplogAsStandalone c rs st = (res, st1) ∧
      st1.trace = st.trace ++ evs ∧ RecoverExec rs res evs := by
  unfold recoverFromOplogAsStandalone
  obtain ⟨r1, st1, h1, ht1⟩ := perform_spec
    (c.StartMongodWithRecoverFromOplogAsStandalone rs.minimalConfigPath)
    (Event.StartMongodWithRecoverFromOplogAsStandalone rs.minimalConfigPath) st
  rw [h1]
  cases r1 with
  | error e => exact ⟨_, _, _, rfl, ht1, RecoverExec.startFail e⟩
  | ok p =>
    obtain ⟨r2, st2, h2, ht2⟩ := perform_spec
      (c.CreateMongodService rs.Context "wal-g restore" p.GetURI)
      (Event.CreateMongodService rs.Context "wal-g restore" p.GetURI) st1
    simp only [h2]
    cases r2 with
    | error e =>
      exact ⟨_, _, _, rfl, by simp [ht2, ht1], RecoverExec.serviceFail p e⟩
    | ok svc =>
      obtain ⟨r4, st4, h4, ht4⟩ := perform_spec (c.Shutdown svc) (Event.Shutdown svc) st2
      simp only [h4]
      cases r4 with
      | some e =>
        refine ⟨_, _, _, rfl, ?_, RecoverExec.shutdownFail p svc e⟩
        simp [ht4, ht2, ht1, recoverStarted]
      | none =>
        obtain ⟨r5, st5, h5, ht5⟩ := perform_spec (c.Wait p) (Event.Wait p) st4
        simp only [h5]
        refine ⟨_, _, _, rfl, ?_, RecoverExec.waited p svc r5⟩
        simp [ht5, ht4, ht2, ht1, recoverStarted, recoverCalls]

theorem DoRestore_spec {σ : Type} (c : Collaborators σ) (rs : RestoreService) (v : String)
    (st : State σ) :
    ∃ res st1 evs, DoRestore c rs v st = (res, st1) ∧
      st1.trace = st.trace ++ evs ∧ Exec rs v res evs := by
  unfold DoRestore
  obtain ⟨r1, st1, h1, ht1⟩ := perform_spec c.DownloadSentinel Event.DownloadSentinel st
  rw [h1]
  cases r1 with
  | error e => exact ⟨_, _, _, rfl, ht1, Exec.sentinelFail e⟩
  | ok s =>
  obtain ⟨r2, st2, h2, ht2⟩ := perform_spec c.DownloadMongodBackupFilesMetadata
    Event.DownloadMongodBackupFilesMetadata st1
  simp only [h2]
  cases r2 with
  | error e => exact ⟨_, _, _, rfl, by simp [ht2, ht1], Exec.manifestFail s e⟩
  | ok m =>
  obtain ⟨r3, st3, h3, ht3⟩ := perform_spec
    (c.EnsureCompatibilityToRestoreMongodVersions v s.Version)
    (Event.EnsureCompatibilityToRestoreMongodVersions v s.Version) st2
  simp only [h3]
  cases r3 with
  | some e =>
    exact ⟨_, _, _, rfl, by simp [ht3, ht2, ht1, fetched], Exec.compatFail s m e⟩
  | none =>
  obtain ⟨r4, st4, h4, ht4⟩ := perform_spec c.EnsureMongodFsLockFileIsEmpty
    Event.EnsureMongodFsLockFileIsEmpty st3
  simp only [h4]
  cases r4 with
  | some e =>
    exact ⟨_, _, _, rfl, by simp [ht4, ht3, ht2, ht1, fetched, compatible], Exec.lockFail s m e⟩
  | none =>
  have hu : st4.trace = st.trace ++ unlocked v s m := by
    simp [ht4, ht3, ht2, ht1, fetched, compatible, unlocked]
  obtain ⟨r5, st5, h5, ht5⟩ := perform_spec c.CleanupMongodDBPath Event.CleanupMongodDBPath st4
  simp only [h5]
  cases r5 with
  | some e => exact ⟨_, _, _, rfl, by simp [ht5, hu], Exec.cleanupFail s m e⟩
  | none =>
  unfold downloadFilesFromBackup
  obtain ⟨r6, st6, h6, ht6⟩ := perform_spec c.EnsureEmptyDBPath Event.EnsureEmptyDBPath st5
  simp only [h6]
  cases r6 with
  | some e => exact ⟨_, _, _, rfl, by simp [ht6, ht5, hu], Exec.emptyFail s m e⟩
  | none =>
  obtain ⟨r7, st7, h7, ht7⟩ := perform_spec (c.CreateDirectories m.BackupDirectories)
    (Event.CreateDirectories m.BackupDirectories) st6
  simp only [h7]
  cases r7 with
  | some e => exact ⟨_, _, _, rfl, by simp [ht7, ht6, ht5, hu], Exec.directoriesFail s m e⟩
  | none =>
  have hp : st7.trace = st.trace ++ prepared v s m := by
    simp [ht7, ht6, ht5, hu, prepared]
  obtain ⟨r8, st8, evs8, h8, ht8, hx8⟩ := downloadLoop_spec c m.BackupFiles st7
  simp only [h8]
  cases hx8 with
  | failed fr f rest e evs hfr hf =>
    cases hf with
    | readerFail _ =>
      exact ⟨_, _, _, rfl, by simp [ht8, hp, transferred], Exec.readerFail s m fr f rest e hfr⟩
    | saved r _ =>
      exact ⟨_, _, _, rfl, by simp [ht8, hp, transferred], Exec.saveFail s m fr f rest r e hfr⟩
  | done fr hfr =>
  have hd : st8.trace = st.trace ++ transferred v s m fr := by
    simp [ht8, hp, transferred]
  obtain ⟨r9, st9, evs9, h9, ht9, hx9⟩ := fixSystemData_spec c rs s st8
  simp only [h9]
  cases r9 with
  | some e =>
    cases hx9 with
    | startFail e0 =>
      exact ⟨_, _, _, rfl, by simp [ht9, hd], Exec.fixStartFail s m fr e0 hfr⟩
    | serviceFail p e0 =>
      exact ⟨_, _, _, rfl, by simp [ht9, hd], Exec.fixServiceFail s m fr p e0 hfr⟩
    | fixFail p svc _ =>
      exact ⟨_, _, _, rfl, by simp [ht9, hd], Exec.fixFail s m fr p svc e hfr⟩
    | shutdownFail p svc _ =>
      exact ⟨_, _, _, rfl, by simp [ht9, hd], Exec.fixShutdownFail s m fr p svc e hfr⟩
    | waited p svc _ =>
      exact ⟨_, _, _, rfl, by simp [ht9, hd], Exec.fixWaitFail s m fr p svc e hfr⟩
  | none =>
  obtain ⟨p1, svc1, rfl⟩ : ∃ p svc, evs9 = fixCalls rs s p svc none := by
    cases hx9 with
    | waited p svc _ => exact ⟨p, svc, rfl⟩
  obtain ⟨r10, st10, evs10, h10, ht10, hx10⟩ := recoverFromOplogAsStandalone_spec c rs st9
  simp only [h10]
  cases r10 with
  | some e =>
    cases hx10 with
    | startFail e0 =>
      exact ⟨_, _, _, rfl, by simp [ht10, ht9, hd], Exec.recoverStartFail s m fr p1 svc1 e0 hfr⟩
    | serviceFail p e0 =>
      exact ⟨_, _, _, rfl, by simp [ht10, ht9, hd],
        Exec.recoverServiceFail s m fr p1 svc1 p e0 hfr⟩
    | shutdownFail p svc _ =>
      exact ⟨_, _, _, rfl, by simp [ht10, ht9, hd],
        Exec.recoverShutdownFail s m fr p1 svc1 p svc e hfr⟩
    | waited p svc _ =>
      exact ⟨_, _, _, rfl, by simp [ht10, ht9, hd],
        Exec.recoverWaitFail s m fr p1 svc1 p svc e hfr⟩
  | none =>
  obtain ⟨p2, svc2, rfl⟩ : ∃ p svc, evs10 = recoverCalls rs p svc none := by
    cases hx10 with
    | waited p svc _ => exact ⟨p, svc, rfl⟩
  obtain ⟨r11, st11, h11, ht11⟩ := perform_spec c.FixFileOwnerOfMongodData
    Event.FixFileOwnerOfMongodData st10
  exact ⟨_, _, _, h11, by simp [ht11, ht10, ht9, hd],
    Exec.finished s m fr p1 svc1 p2 svc2 r11 hfr⟩

/-- Every run of `restore` is one of the executions of `Exec`. -/
theorem restore_exec {σ : Type} (c : Collaborators σ) (rs : RestoreService) (v : String)
    (w : σ) : Exec rs v (restore c rs v w).1 (restore c rs v w).2 := by
  obtain ⟨res, st1, evs, h, ht, hx⟩ := DoRestore_spec c rs v ⟨w, []⟩
  simp only [restore, h]
  simpa [ht] using hx



/-! ## Facts about the trace shapes -/

theorem failure_of_mem_filesOk {fr : List (BackupFileMeta × Reader)} {ev : Event}
    (h : ev ∈ filesOk fr) : ev.failure = none := by
  induction fr with
  | nil => simp [filesOk] at h
  | cons p rest ih =>
    simp only [filesOk, fileCalls, List.mem_append, List.mem_cons, List.mem_singleton,
      List.not_mem_nil, or_false] at h
    rcases h with (h | h | h) | h
    · subst h; rfl
    · subst h; rfl
    · subst h; rfl
    · exact ih h

theorem mem_filesOk {fr : List (BackupFileMeta × Reader)} {ev : Event} :
    ev ∈ filesOk fr ↔ ∃ p ∈ fr, ev ∈ fileCalls p.1 p.2 none := by
  induction fr with
  | nil => simp [filesOk]
  | cons p rest ih => simp [filesOk, ih]

theorem failure_of_mem_transferred {v : String} {s : Backup} {m : MongodBackupFilesMetadata}
    {fr : List (BackupFileMeta × Reader)} {ev : Event} (h : ev ∈ transferred v s m fr) :
    ev.failure = none := by
  simp only [transferred, prepared, unlocked, compatible, fetched, List.mem_append,
    List.mem_cons, List.mem_singleton, List.not_mem_nil, or_false] at h
  rcases h with (((((h | h) | h) | h) | h | h | h)) | h
  all_goals first
    | exact failure_of_mem_filesOk h
    | (subst h; rfl)

/-- The outcome of an execution: either nothing failed and nil is returned, or
exactly one call failed, nothing but the close of an open reader follows it, and
the returned error is the failure in the context of that call. -/
theorem exec_outcome {rs : RestoreService} {v : String} {res : Option Error} {t : List Event}
    (hx : Exec rs v res t) :
    (res = none ∧ ∀ ev ∈ t, ev.failure = none) ∨
    ∃ pre ev e post, t = pre ++ ev :: post ∧ (∀ x ∈ pre, x.failure = none) ∧
      ev.failure = some e ∧ res = some (returnedFor ev e) ∧
      (post = [] ∨ ∃ r f, ev = Event.SaveStreamToMongodFile r f (some e) ∧
        post = [Event.LoggedClose r ("backup file reader " ++ f.Path)] ∧
        ∃ pre0, pre = pre0 ++ [Event.CreateReader f (.ok r)]) := by
  have hT := @failure_of_mem_transferred
  cases hx with
  | sentinelFail e => exact Or.inr ⟨[], _, e, [], rfl, by simp, rfl, rfl, Or.inl rfl⟩
  | manifestFail s e =>
    exact Or.inr ⟨[_], _, e, [], rfl, by simp [Event.failure], rfl, rfl, Or.inl rfl⟩
  | compatFail s m e =>
    exact Or.inr ⟨fetched s m, _, e, [], rfl, by simp [fetched, Event.failure], rfl, rfl,
      Or.inl rfl⟩
  | lockFail s m e =>
    exact Or.inr ⟨compatible v s m, _, e, [], rfl,
      by simp [compatible, fetched, Event.failure], rfl, rfl, Or.inl rfl⟩
  | cleanupFail s m e =>
    exact Or.inr ⟨unlocked v s m, _, e, [], rfl,
      by simp [unlocked, compatible, fetched, Event.failure], rfl, rfl, Or.inl rfl⟩
  | emptyFail s m e =>
    exact Or.inr ⟨unlocked v s m ++ [Event.CleanupMongodDBPath none],
      Event.EnsureEmptyDBPath (some e), e, [], by simp,
      by simp [unlocked, compatible, fetched, Event.failure], rfl, rfl, Or.inl rfl⟩
  | directoriesFail s m e =>
    exact Or.inr ⟨unlocked v s m ++ [Event.CleanupMongodDBPath none,
      Event.EnsureEmptyDBPath none], Event.CreateDirectories m.BackupDirectories (some e),
      e, [], by simp,
      by simp [unlocked, compatible, fetched, Event.failure], rfl, rfl, Or.inl rfl⟩
  | readerFail s m fr f rest e h =>
    exact Or.inr ⟨transferred v s m fr, _, e, [], rfl, fun x hx => hT hx, rfl, rfl, Or.inl rfl⟩
  | saveFail s m fr f rest r e h =>
    refine Or.inr ⟨transferred v s m fr ++ [Event.CreateReader f (.ok r)],
      Event.SaveStreamToMongodFile r f (some e), e,
      [Event.LoggedClose r ("backup file reader " ++ f.Path)], by simp [fileCalls], ?_, rfl, rfl,
      Or.inr ⟨r, f, rfl, rfl, _, rfl⟩⟩
    intro x hx
    rcases List.mem_append.1 hx with hx | hx
    · exact hT hx
    · simp only [List.mem_singleton] at hx; subst hx; rfl
  | fixStartFail s m fr e h =>
    exact Or.inr ⟨transferred v s m fr, _, e, [], rfl, fun x hx => hT hx, rfl, rfl, Or.inl rfl⟩
  | fixServiceFail s m fr p e h =>
    refine Or.inr ⟨transferred v s m fr ++
      [Event.StartMongodWithDisableLogicalSessionCacheRefresh rs.minimalConfigPath (.ok p)],
      Event.CreateMongodService rs.Context "wal-g restore" p.GetURI (.error e), e, [],
      by simp, ?_, rfl, rfl, Or.inl rfl⟩
    intro x hx
    rcases List.mem_append.1 hx with hx | hx
    · exact hT hx
    · simp only [List.mem_singleton] at hx; subst hx; rfl
  | fixFail s m fr p svc e h =>
    refine Or.inr ⟨transferred v s m fr ++ fixStarted rs p svc, _, e, [], rfl, ?_, rfl, rfl,
      Or.inl rfl⟩
    intro x hx
    rcases List.mem_append.1 hx with hx | hx
    · exact hT hx
    · simp only [fixStarted, List.mem_cons, List.mem_singleton, List.not_mem_nil,
        or_false] at hx
      rcases hx with hx | hx <;> subst hx <;> rfl
  | fixShutdownFail s m fr p svc e h =>
    refine Or.inr ⟨transferred v s m fr ++ fixStarted rs p svc ++
      [Event.FixSystemDataAfterRestore svc s.BackupLastTS none], Event.Shutdown svc (some e),
      e, [], by simp, ?_, rfl, rfl, Or.inl rfl⟩
    intro x hx
    simp only [fixStarted, List.mem_append, List.mem_cons, List.mem_singleton,
      List.not_mem_nil, or_false] at hx
    rcases hx with (hx | hx | hx) | hx
    · exact hT hx
    all_goals (subst hx; rfl)
  | fixWaitFail s m fr p svc e h =>
    refine Or.inr ⟨transferred v s m fr ++ fixStarted rs p svc ++
      [Event.FixSystemDataAfterRestore svc s.BackupLastTS none, Event.Shutdown svc none],
      Event.Wait p (some e), e, [], by simp [fixCalls], ?_, rfl, rfl, Or.inl rfl⟩
    intro x hx
    simp only [fixStarted, List.mem_append, List.mem_cons, List.mem_singleton,
      List.not_mem_nil, or_false] at hx
    rcases hx with (hx | hx | hx) | hx | hx
    · exact hT hx
    all_goals (subst hx; rfl)
  | recoverStartFail s m fr p1 svc1 e h =>
    refine Or.inr ⟨transferred v s m fr ++ fixCalls rs s p1 svc1 none, _, e, [], rfl, ?_,
      rfl, rfl, Or.inl rfl⟩
    intro x hx
    simp only [fixCalls, fixStarted, List.mem_append, List.mem_cons, List.mem_singleton,
      List.not_mem_nil, or_false] at hx
    rcases hx with hx | (hx | hx) | hx | hx | hx
    · exact hT hx
    all_goals (subst hx; rfl)
  | recoverServiceFail s m fr p1 svc1 p e h =>
    refine Or.inr ⟨transferred v s m fr ++ fixCalls rs s p1 svc1 none ++
      [Event.StartMongodWithRecoverFromOplogAsStandalone rs.minimalConfigPath (.ok p)],
      Event.CreateMongodService rs.Context "wal-g restore" p.GetURI (.error e), e, [],
      by simp, ?_, rfl, rfl, Or.inl rfl⟩
    intro x hx
    simp only [fixCalls, fixStarted, List.mem_append, List.mem_cons, List.mem_singleton,
      List.not_mem_nil, or_false] at hx
    rcases hx with (hx | (hx | hx) | hx | hx | hx) | hx
    · exact hT hx
    all_goals (subst hx; rfl)
  | recoverShutdownFail s m fr p1 svc1 p svc e h =>
    refine Or.inr ⟨transferred v s m fr ++ fixCalls rs s p1 svc1 none ++
      recoverStarted rs p svc, _, e, [], rfl, ?_, rfl, rfl, Or.inl rfl⟩
    intro x hx
    simp only [fixCalls, fixStarted, recoverStarted, List.mem_append, List.mem_cons,
      List.mem_singleton, List.not_mem_nil, or_false] at hx
    rcases hx with (hx | (hx | hx) | hx | hx | hx) | hx | hx
    · exact hT hx
    all_goals (subst hx; rfl)
  | recoverWaitFail s m fr p1 svc1 p svc e h =>
    refine Or.inr ⟨transferred v s m fr ++ fixCalls rs s p1 svc1 none ++
      recoverStarted rs p svc ++ [Event.Shutdown svc none], Event.Wait p (some e), e, [],
      by simp [recoverCalls], ?_, rfl, rfl, Or.inl rfl⟩
    intro x hx
    simp only [fixCalls, fixStarted, recoverStarted, List.mem_append, List.mem_cons,
      List.mem_singleton, List.not_mem_nil, or_false] at hx
    rcases hx with ((hx | (hx | hx) | hx | hx | hx) | hx | hx) | hx
    · exact hT hx
    all_goals (subst hx; rfl)
  | finished s m fr p1 svc1 p2 svc2 res h =>
    cases res with
    | none =>
      refine Or.inl ⟨rfl, ?_⟩
      intro x hx
      simp only [fixCalls, fixStarted, recoverCalls, recoverStarted, List.mem_append,
        List.mem_cons, List.mem_singleton, List.not_mem_nil, or_false] at hx
      rcases hx with ((hx | (hx | hx) | hx | hx | hx) | (hx | hx) | hx | hx) | hx
      · exact hT hx
      all_goals (subst hx; rfl)
    | some e =>
      refine Or.inr ⟨transferred v s m fr ++ fixCalls rs s p1 svc1 none ++
        recoverCalls rs p2 svc2 none, _, e, [], rfl, ?_, rfl, rfl, Or.inl rfl⟩
      intro x hx
      simp only [fixCalls, fixStarted, recoverCalls, recoverStarted, List.mem_append,
        List.mem_cons, List.mem_singleton, List.not_mem_nil, or_false] at hx
      rcases hx with (hx | (hx | hx) | hx | hx | hx) | (hx | hx) | hx | hx
      · exact hT hx
      all_goals (subst hx; rfl)

/-- A list splits in one way only around an element with a property that no
other element has. -/
theorem split_unique {α : Type} (P : α → Prop) {A B pre post : List α} {x y : α}
    (hA : ∀ a ∈ A, ¬ P a) (hB : ∀ b ∈ B, ¬ P b) (hy : P y)
    (h : A ++ x :: B = pre ++ y :: post) : A = pre ∧ x = y ∧ B = post := by
  induction A generalizing pre with
  | nil =>
    cases pre with
    | nil => simpa using h
    | cons z pre1 =>
      simp only [List.nil_append, List.cons_append, List.cons.injEq] at h
      exact absurd hy (hB y (by rw [h.2]; simp))
  | cons a A1 ih =>
    cases pre with
    | nil =>
      simp only [List.nil_append, List.cons_append, List.cons.injEq] at h
      exact absurd (h.1 ▸ hy) (hA a (by simp))
    | cons z pre1 =>
      simp only [List.cons_append, List.cons.injEq] at h
      obtain ⟨h1, h2, h3⟩ := ih (fun a ha => hA a (by simp [ha])) h.2
      exact ⟨by rw [h.1, h1], h2, h3⟩

/-- A failed call in an execution is the only failed call: everything before
it succeeded, at most the close of its reader follows, and the returned error is
the failure in the context of that call. -/
theorem exec_failure_at {rs : RestoreService} {v : String} {res : Option Error}
    {t pre post : List Event} {ev : Event} {e : Error}
    (hx : Exec rs v res t) (ht : t = pre ++ ev :: post) (he : ev.failure = some e) :
    (∀ x ∈ pre, x.failure = none) ∧ res = some (returnedFor ev e) ∧
      (post = [] ∨ ∃ r f, ev = Event.SaveStreamToMongodFile r f (some e) ∧
        post = [Event.LoggedClose r ("backup file reader " ++ f.Path)] ∧
        ∃ pre0, pre = pre0 ++ [Event.CreateReader f (.ok r)]) := by
  rcases exec_outcome hx with ⟨_, hall⟩ | ⟨pre1, ev1, e1, post1, ht1, hpre1, he1, hres, hpost⟩
  · have := hall ev (by rw [ht]; simp)
    rw [he] at this
    exact absurd this (by simp)
  · have hB : ∀ b ∈ post1, ¬ (fun x : Event => x.failure ≠ none) b := by
      intro b hb
      rcases hpost with h | ⟨r, f, _, h, _⟩ <;> rw [h] at hb
      · simp at hb
      · simp only [List.mem_singleton] at hb
        subst hb
        simp [Event.failure]
    have hA : ∀ a ∈ pre1, ¬ (fun x : Event => x.failure ≠ none) a := by
      intro a ha
      simp [hpre1 a ha]
    have hy : (fun x : Event => x.failure ≠ none) ev := by simp [he]
    obtain ⟨h1, h2, h3⟩ := split_unique (fun x : Event => x.failure ≠ none) hA hB hy
      (ht1.symm.trans ht)
    subst h1 h2 h3
    have hee : e1 = e := by
      rw [he1] at he
      exact Option.some.inj he
    subst hee
    exact ⟨hpre1, hres, hpost⟩

theorem exec_failure_mem {rs : RestoreService} {v : String} {res : Option Error}
    {t : List Event} {ev : Event} {e : Error}
    (hx : Exec rs v res t) (hm : ev ∈ t) (he : ev.failure = some e) :
    res = some (returnedFor ev e) := by
  obtain ⟨pre, post, ht⟩ := List.append_of_mem hm
  exact (exec_failure_at hx ht he).2.1

theorem mem_chain_self (e : Error) : e ∈ e.chain := by
  cases e <;> simp [Error.chain]

theorem mem_chain_returnedFor (ev : Event) (e : Error) : e ∈ (returnedFor ev e).chain := by
  cases ev <;> simp [returnedFor, Wrap, Error.chain, mem_chain_self]

theorem filesOpened_filesOk (fr : List (BackupFileMeta × Reader)) :
    filesOpened (filesOk fr) = fr.map Prod.fst := by
  induction fr with
  | nil => rfl
  | cons p rest ih =>
    simp only [filesOpened] at ih
    simp [filesOpened, filesOk, fileCalls, List.filterMap_cons, Event.openedFile, ih]

theorem filesWritten_filesOk (fr : List (BackupFileMeta × Reader)) :
    filesWritten (filesOk fr) = fr.map Prod.fst := by
  induction fr with
  | nil => rfl
  | cons p rest ih =>
    simp only [filesWritten] at ih
    simp [filesWritten, filesOk, fileCalls, List.filterMap_cons, Event.writtenFile, ih]

theorem filesOpened_transferred (v : String) (s : Backup) (m : MongodBackupFilesMetadata)
    (fr : List (BackupFileMeta × Reader)) :
    filesOpened (transferred v s m fr) = fr.map Prod.fst := by
  have h := filesOpened_filesOk fr
  simp only [filesOpened] at h
  simp [filesOpened, transferred, prepared, unlocked, compatible, fetched,
    List.filterMap_append, List.filterMap_cons, Event.openedFile, h]

theorem filesWritten_transferred (v : String) (s : Backup) (m : MongodBackupFilesMetadata)
    (fr : List (BackupFileMeta × Reader)) :
    filesWritten (transferred v s m fr) = fr.map Prod.fst := by
  have h := filesWritten_filesOk fr
  simp only [filesWritten] at h
  simp [filesWritten, transferred, prepared, unlocked, compatible, fetched,
    List.filterMap_append, List.filterMap_cons, Event.writtenFile, h]

theorem exec_owner_of_none {rs : RestoreService} {v : String} {t : List Event}
    (hx : Exec rs v none t) : Event.FixFileOwnerOfMongodData none ∈ t := by
  cases hx with
  | finished s m fr p1 svc1 p2 svc2 _ h => simp

theorem exec_owner_last {rs : RestoreService} {v : String} {res : Option Error}
    {t : List Event} (hx : Exec rs v res t) (r : Option Error)
    (h : Event.FixFileOwnerOfMongodData r ∈ t) :
    ∃ pre, t = pre ++ [Event.FixFileOwnerOfMongodData res] ∧ ∀ x ∈ pre, x.failure = none := by
  cases hx <;>
    simp [transferred, prepared, unlocked, compatible, fetched, fixCalls, fixStarted,
      recoverCalls, recoverStarted, mem_filesOk, fileCalls] at h
  case finished s m fr p1 svc1 p2 svc2 _ =>
    refine ⟨_, rfl, ?_⟩
    intro x hx
    simp only [fixCalls, fixStarted, recoverCalls, recoverStarted, List.mem_append,
      List.mem_cons, List.mem_singleton, List.not_mem_nil, or_false] at hx
    rcases hx with (hx | (hx | hx) | hx | hx | hx) | (hx | hx) | hx | hx
    · exact failure_of_mem_transferred hx
    all_goals (subst hx; rfl)

theorem prefix_append_cases {α : Type} {A B pre : List α} (h : pre <+: A ++ B) :
    pre <+: A ∨ ∃ t, pre = A ++ t ∧ t <+: B := by
  obtain ⟨suf, hs⟩ := h
  rcases List.append_eq_append_iff.1 hs with ⟨a1, h1, h2⟩ | ⟨c1, h1, h2⟩
  · exact Or.inl ⟨a1, h1.symm⟩
  · exact Or.inr ⟨c1, h1, ⟨suf, h2.symm⟩⟩

/-- A split of `A ++ B` around an element that cannot be in `A` is a split
of `B`. -/
theorem append_split {α : Type} (P : α → Prop) {A B pre post : List α} {y : α}
    (hA : ∀ a ∈ A, ¬ P a) (hy : P y) (h : A ++ B = pre ++ y :: post) :
    ∃ t, pre = A ++ t ∧ B = t ++ y :: post := by
  rcases List.append_eq_append_iff.1 h with ⟨a1, h1, h2⟩ | ⟨c1, h1, h2⟩
  · exact ⟨a1, h1, h2⟩
  · cases c1 with
    | nil =>
      refine ⟨[], by simpa using h1.symm, ?_⟩
      simpa using h2.symm
    | cons z c2 =>
      simp only [List.cons_append, List.cons.injEq] at h2
      exact absurd hy (h2.1 ▸ hA z (by rw [h1]; simp))

theorem prefixesOwned_sound (B : List Event) :
    ∀ started waited, prefixesOwned started waited B = true → started ≤ waited + 1 →
      ∀ t, t <+: B → started + engineStarted t ≤ waited + engineWaited t + 1 := by
  induction B with
  | nil =>
    intro started waited _ h0 t ht
    have : t = [] := List.prefix_nil.1 ht
    subst this
    simpa [engineStarted, engineWaited] using h0
  | cons ev rest ih =>
    intro started waited h h0 t ht
    simp only [prefixesOwned, Bool.and_eq_true, decide_eq_true_eq] at h
    rcases List.prefix_cons_iff.1 ht with h1 | ⟨t1, h1, h2⟩
    · subst h1
      simpa [engineStarted, engineWaited] using h0
    · subst h1
      have := ih _ _ h.2 h.1 t1 h2
      simp only [engineStarted, engineWaited, List.countP_cons] at this ⊢
      omega

theorem not_engine_of_mem_transferred {v : String} {s : Backup}
    {m : MongodBackupFilesMetadata} {fr : List (BackupFileMeta × Reader)} {ev : Event}
    (h : ev ∈ transferred v s m fr) :
    ev.isEngine = false ∧ ∀ r, ev ≠ Event.FixFileOwnerOfMongodData r := by
  simp only [transferred, prepared, unlocked, compatible, fetched, List.mem_append,
    List.mem_cons, List.mem_singleton, List.not_mem_nil, or_false, mem_filesOk,
    fileCalls] at h
  rcases h with (((((h | h) | h) | h) | h | h | h)) | ⟨p, _, h | h | h⟩
  all_goals (subst h; exact ⟨rfl, fun r hr => by cases hr⟩)

theorem not_started_of_not_engine {x : Event} (h : x.isEngine = false) :
    x.isStarted = false ∧ x.isWait = false ∧ x.isEngineStart = false := by
  cases x <;> first
    | exact ⟨rfl, rfl, rfl⟩
    | exact absurd h (by simp [Event.isEngine])

/-- Every execution is a run of calls outside the engine stages followed by the
calls of the engine stages. -/
theorem exec_engine_split {rs : RestoreService} {v : String} {res : Option Error}
    {t : List Event} (hx : Exec rs v res t) :
    ∃ A B s, t = A ++ B ∧
      (∀ x ∈ A, x.isEngine = false ∧ ∀ r, x ≠ Event.FixFileOwnerOfMongodData r) ∧
      EngineCalls rs s B := by
  have hT := @not_engine_of_mem_transferred
  have hnil : ∀ l : List Event, ∀ s : Backup,
      (∀ x ∈ l, x.isEngine = false ∧ ∀ r, x ≠ Event.FixFileOwnerOfMongodData r) →
      ∃ A B s, l = A ++ B ∧
        (∀ x ∈ A, x.isEngine = false ∧ ∀ r, x ≠ Event.FixFileOwnerOfMongodData r) ∧
        EngineCalls rs s B :=
    fun l s h => ⟨l, [], s, by simp, h, EngineCalls.notReached⟩
  cases hx with
  | sentinelFail e =>
    exact hnil _ ⟨"", ⟨0, 0⟩⟩ (by simp [Event.isEngine])
  | manifestFail s e => exact hnil _ s (by simp [Event.isEngine])
  | compatFail s m e => exact hnil _ s (by simp [fetched, Event.isEngine])
  | lockFail s m e => exact hnil _ s (by simp [compatible, fetched, Event.isEngine])
  | cleanupFail s m e => exact hnil _ s (by simp [unlocked, compatible, fetched, Event.isEngine])
  | emptyFail s m e => exact hnil _ s (by simp [unlocked, compatible, fetched, Event.isEngine])
  | directoriesFail s m e =>
    exact hnil _ s (by simp [unlocked, compatible, fetched, Event.isEngine])
  | readerFail s m fr f rest e h =>
    refine hnil _ s ?_
    intro x hx
    rcases List.mem_append.1 hx with hx | hx
    · exact hT hx
    · simp only [List.mem_singleton] at hx
      subst hx
      exact ⟨rfl, fun r hr => by cases hr⟩
  | saveFail s m fr f rest r e h =>
    refine hnil _ s ?_
    intro x hx
    rcases List.mem_append.1 hx with hx | hx
    · exact hT hx
    · simp only [fileCalls, List.mem_cons, List.mem_singleton, List.not_mem_nil,
        or_false] at hx
      rcases hx with hx | hx | hx <;> subst hx <;> exact ⟨rfl, fun r hr => by cases hr⟩
  | fixStartFail s m fr e h =>
    exact ⟨_, _, s, rfl, fun x hx => hT hx, EngineCalls.fixStartFail e⟩
  | fixServiceFail s m fr p e h =>
    exact ⟨_, _, s, rfl, fun x hx => hT hx, EngineCalls.fixServiceFail p e⟩
  | fixFail s m fr p svc e h =>
    exact ⟨_, _, s, List.append_assoc _ _ _, fun x hx => hT hx, EngineCalls.fixFail p svc e⟩
  | fixShutdownFail s m fr p svc e h =>
    exact ⟨_, _, s, List.append_assoc _ _ _, fun x hx => hT hx,
      EngineCalls.fixShutdownFail p svc e⟩
  | fixWaitFail s m fr p svc e h =>
    exact ⟨_, _, s, rfl, fun x hx => hT hx, EngineCalls.fixWaitFail p svc e⟩
  | recoverStartFail s m fr p1 svc1 e h =>
    exact ⟨_, _, s, List.append_assoc _ _ _, fun x hx => hT hx,
      EngineCalls.recoverStartFail p1 svc1 e⟩
  | recoverServiceFail s m fr p1 svc1 p e h =>
    exact ⟨_, _, s, List.append_assoc _ _ _, fun x hx => hT hx,
      EngineCalls.recoverServiceFail p1 svc1 p e⟩
  | recoverShutdownFail s m fr p1 svc1 p svc e h =>
    exact ⟨transferred v s m fr, _, s, by simp only [List.append_assoc], fun x hx => hT hx,
      EngineCalls.recoverShutdownFail p1 svc1 p svc e⟩
  | recoverWaitFail s m fr p1 svc1 p svc e h =>
    exact ⟨_, _, s, List.append_assoc _ _ _, fun x hx => hT hx,
      EngineCalls.recoverWaitFail p1 svc1 p svc e⟩
  | finished s m fr p1 svc1 p2 svc2 res h =>
    exact ⟨transferred v s m fr, _, s, by simp only [List.append_assoc], fun x hx => hT hx,
      EngineCalls.finished p1 svc1 p2 svc2 res⟩

/-! ## Properties of the restore -/

/-- C1: when every collaborator call of a restore returns without error,
`DoRestore` returns nil and its calls are, in order: `DownloadSentinel`,
`DownloadMongodBackupFilesMetadata`, the compatibility check on the requested
version and the sentinel version, `EnsureMongodFsLockFileIsEmpty`,
`CleanupMongodDBPath`, `EnsureEmptyDBPath`, `CreateDirectories` on the manifest
directories, for each manifest file in order `CreateReader`,
`SaveStreamToMongodFile` and the close of the reader, the engine start with the
logical session cache refresh disabled, the service creation on its URI,
`FixSystemDataAfterRestore` with the sentinel `BackupLastTS`, `Shutdown`, `Wait`,
the engine start in recover-from-oplog-as-standalone mode, the service creation,
`Shutdown`, `Wait`, and last `FixFileOwnerOfMongodData`. -/
theorem C1_success_call_sequence {σ : Type} (c : Collaborators σ) (rs : RestoreService)
    (v : String) (w : σ)
    (hok : ∀ ev ∈ (restore c rs v w).2, ev.failure = none) :
    (restore c rs v w).1 = none ∧
    ∃ (s : Backup) (m : MongodBackupFilesMetadata) (fr : List (BackupFileMeta × Reader))
      (p1 : MongodProcess) (svc1 : MongodService) (p2 : MongodProcess) (svc2 : MongodService),
      m.BackupFiles = fr.map Prod.fst ∧
      (restore c rs v w).2 =
        [Event.DownloadSentinel (.ok s),
         Event.DownloadMongodBackupFilesMetadata (.ok m),
         Event.EnsureCompatibilityToRestoreMongodVersions v s.Version none,
         Event.EnsureMongodFsLockFileIsEmpty none,
         Event.CleanupMongodDBPath none,
         Event.EnsureEmptyDBPath none,
         Event.CreateDirectories m.BackupDirectories none] ++
        filesOk fr ++
        [Event.StartMongodWithDisableLogicalSessionCacheRefresh rs.minimalConfigPath (.ok p1),
         Event.CreateMongodService rs.Context "wal-g restore" p1.GetURI (.ok svc1),
         Event.FixSystemDataAfterRestore svc1 s.BackupLastTS none,
         Event.Shutdown svc1 none,
         Event.Wait p1 none,
         Event.StartMongodWithRecoverFromOplogAsStandalone rs.minimalConfigPath (.ok p2),
         Event.CreateMongodService rs.Context "wal-g restore" p2.GetURI (.ok svc2),
         Event.Shutdown svc2 none,
         Event.Wait p2 none,
         Event.FixFileOwnerOfMongodData none] := by
  have hx := restore_exec c rs v w
  generalize (restore c rs v w).1 = res at *
  generalize (restore c rs v w).2 = t at *
  cases hx with
  | sentinelFail e => simpa [Event.failure] using hok _ (List.mem_singleton_self _)
  | manifestFail s e =>
    simpa [Event.failure] using hok (Event.DownloadMongodBackupFilesMetadata (.error e)) (by simp)
  | compatFail s m e =>
    simpa [Event.failure] using
      hok (Event.EnsureCompatibilityToRestoreMongodVersions v s.Version (some e)) (by simp)
  | lockFail s m e =>
    simpa [Event.failure] using hok (Event.EnsureMongodFsLockFileIsEmpty (some e)) (by simp)
  | cleanupFail s m e =>
    simpa [Event.failure] using hok (Event.CleanupMongodDBPath (some e)) (by simp)
  | emptyFail s m e =>
    simpa [Event.failure] using hok (Event.EnsureEmptyDBPath (some e)) (by simp)
  | directoriesFail s m e =>
    simpa [Event.failure] using
      hok (Event.CreateDirectories m.BackupDirectories (some e)) (by simp)
  | readerFail s m fr f rest e h =>
    simpa [Event.failure] using hok (Event.CreateReader f (.error e)) (by simp)
  | saveFail s m fr f rest r e h =>
    simpa [Event.failure] using
      hok (Event.SaveStreamToMongodFile r f (some e)) (by simp [fileCalls])
  | fixStartFail s m fr e h =>
    simpa [Event.failure] using hok (Event.StartMongodWithDisableLogicalSessionCacheRefresh
      rs.minimalConfigPath (.error e)) (by simp)
  | fixServiceFail s m fr p e h =>
    simpa [Event.failure] using hok (Event.CreateMongodService rs.Context "wal-g restore"
      p.GetURI (.error e)) (by simp)
  | fixFail s m fr p svc e h =>
    simpa [Event.failure] using
      hok (Event.FixSystemDataAfterRestore svc s.BackupLastTS (some e)) (by simp)
  | fixShutdownFail s m fr p svc e h =>
    simpa [Event.failure] using hok (Event.Shutdown svc (some e)) (by simp)
  | fixWaitFail s m fr p svc e h =>
    simpa [Event.failure] using hok (Event.Wait p (some e)) (by simp [fixCalls])
  | recoverStartFail s m fr p1 svc1 e h =>
    simpa [Event.failure] using hok (Event.StartMongodWithRecoverFromOplogAsStandalone
      rs.minimalConfigPath (.error e)) (by simp)
  | recoverServiceFail s m fr p1 svc1 p e h =>
    simpa [Event.failure] using hok (Event.CreateMongodService rs.Context "wal-g restore"
      p.GetURI (.error e)) (by simp)
  | recoverShutdownFail s m fr p1 svc1 p svc e h =>
    simpa [Event.failure] using hok (Event.Shutdown svc (some e)) (by simp)
  | recoverWaitFail s m fr p1 svc1 p svc e h =>
    simpa [Event.failure] using hok (Event.Wait p (some e)) (by simp [recoverCalls])
  | finished s m fr p1 svc1 p2 svc2 res h =>
    have hres : res = none := by
      simpa [Event.failure] using hok (Event.FixFileOwnerOfMongodData res) (by simp)
    subst hres
    refine ⟨rfl, s, m, fr, p1, svc1, p2, svc2, h, ?_⟩
    simp [transferred, prepared, unlocked, compatible, fetched, fixCalls, fixStarted,
      recoverCalls, recoverStarted]

/-- C1, on the sample backup with two files: every call succeeds, so the restore
returns nil with the full call sequence. -/
theorem C1_success_call_sequence_witness :
    (∀ ev ∈ (restore (scripted 100) sampleService "6.0.1" 0).2, ev.failure = none) ∧
    (restore (scripted 100) sampleService "6.0.1" 0).1 = none ∧
    ∃ (s : Backup) (m : MongodBackupFilesMetadata) (fr : List (BackupFileMeta × Reader))
      (p1 : MongodProcess) (svc1 : MongodService) (p2 : MongodProcess) (svc2 : MongodService),
      m.BackupFiles = fr.map Prod.fst ∧
      (restore (scripted 100) sampleService "6.0.1" 0).2 =
        [Event.DownloadSentinel (.ok s),
         Event.DownloadMongodBackupFilesMetadata (.ok m),
         Event.EnsureCompatibilityToRestoreMongodVersions "6.0.1" s.Version none,
         Event.EnsureMongodFsLockFileIsEmpty none,
         Event.CleanupMongodDBPath none,
         Event.EnsureEmptyDBPath none,
         Event.CreateDirectories m.BackupDirectories none] ++
        filesOk fr ++
        [Event.StartMongodWithDisableLogicalSessionCacheRefresh sampleService.minimalConfigPath
           (.ok p1),
         Event.CreateMongodService sampleService.Context "wal-g restore" p1.GetURI (.ok svc1),
         Event.FixSystemDataAfterRestore svc1 s.BackupLastTS none,
         Event.Shutdown svc1 none,
         Event.Wait p1 none,
         Event.StartMongodWithRecoverFromOplogAsStandalone sampleService.minimalConfigPath
           (.ok p2),
         Event.CreateMongodService sampleService.Context "wal-g restore" p2.GetURI (.ok svc2),
         Event.Shutdown svc2 none,
         Event.Wait p2 none,
         Event.FixFileOwnerOfMongodData none] :=
  ⟨by decide, C1_success_call_sequence (scripted 100) sampleService "6.0.1" 0 (by decide)⟩

/-- C4: if `EnsureMongodFsLockFileIsEmpty` returns an error, `DoRestore` returns
that very error, and the calls made are the two metadata downloads, the
compatibility check and the lock-file check only: no other `LocalStorage` call
(`CleanupMongodDBPath`, `EnsureEmptyDBPath`, `CreateDirectories`,
`SaveStreamToMongodFile`, `FixFileOwnerOfMongodData`) and no engine start is
made. -/
theorem C4_lock_failure_stops_before_any_write {σ : Type} (c : Collaborators σ)
    (rs : RestoreService) (v : String) (w : σ) (e : Error)
    (hlock : Event.EnsureMongodFsLockFileIsEmpty (some e) ∈ (restore c rs v w).2) :
    (restore c rs v w).1 = some e ∧
    (∃ s m, (restore c rs v w).2 =
      [Event.DownloadSentinel (.ok s),
       Event.DownloadMongodBackupFilesMetadata (.ok m),
       Event.EnsureCompatibilityToRestoreMongodVersions v s.Version none,
       Event.EnsureMongodFsLockFileIsEmpty (some e)]) ∧
    (∀ ev ∈ (restore c rs v w).2, ev.isLocalStorage = true →
      ev = Event.EnsureMongodFsLockFileIsEmpty (some e)) ∧
    (∀ ev ∈ (restore c rs v w).2, ev.isEngineStart = false ∧ ev.isFileTransfer = false) := by
  have hx := restore_exec c rs v w
  generalize (restore c rs v w).1 = res at *
  generalize (restore c rs v w).2 = t at *
  cases hx <;>
    simp [transferred, prepared, unlocked, compatible, fetched, fixCalls, fixStarted,
      recoverCalls, recoverStarted, mem_filesOk, fileCalls] at hlock
  case lockFail s m e1 =>
    subst hlock
    refine ⟨rfl, ⟨s, m, rfl⟩, ?_, ?_⟩ <;>
      simp [compatible, fetched, Event.isLocalStorage, Event.isEngineStart,
        Event.isFileTransfer]

/-- C4, on the sample backup when the lock-file check (call number 3) fails. -/
theorem C4_lock_failure_stops_before_any_write_witness :
    Event.EnsureMongodFsLockFileIsEmpty (some (Error.base "mongod.lock is not empty")) ∈
      (restore (scripted 3) sampleService "6.0.1" 0).2 ∧
    (restore (scripted 3) sampleService "6.0.1" 0).1 =
      some (Error.base "mongod.lock is not empty") :=
  ⟨by decide,
   (C4_lock_failure_stops_before_any_write (scripted 3) sampleService "6.0.1" 0
      (Error.base "mongod.lock is not empty") (by decide)).1⟩


/-- C5: the compatibility check is called on the requested version first and
the version of the downloaded sentinel second, right after the two metadata
downloads; and when it returns an error, `DoRestore` returns that very error
and has made no `LocalStorage` call, no file transfer call and no engine
start. -/
theorem C5_compatibility_check_arguments_and_abort {σ : Type} (c : Collaborators σ)
    (rs : RestoreService) (v : String) (w : σ) :
    (∀ s m, Event.DownloadSentinel (.ok s) ∈ (restore c rs v w).2 →
      Event.DownloadMongodBackupFilesMetadata (.ok m) ∈ (restore c rs v w).2 →
      ∃ r, Event.EnsureCompatibilityToRestoreMongodVersions v s.Version r ∈
        (restore c rs v w).2) ∧
    (∀ a b r, Event.EnsureCompatibilityToRestoreMongodVersions a b r ∈ (restore c rs v w).2 →
      a = v ∧ ∃ s m rest, b = s.Version ∧
        (restore c rs v w).2 =
          Event.DownloadSentinel (.ok s) :: Event.DownloadMongodBackupFilesMetadata (.ok m) ::
            Event.EnsureCompatibilityToRestoreMongodVersions v s.Version r :: rest) ∧
    (∀ a b e,
      Event.EnsureCompatibilityToRestoreMongodVersions a b (some e) ∈ (restore c rs v w).2 →
      (restore c rs v w).1 = some e ∧
      (∃ s m, (restore c rs v w).2 =
        [Event.DownloadSentinel (.ok s),
         Event.DownloadMongodBackupFilesMetadata (.ok m),
         Event.EnsureCompatibilityToRestoreMongodVersions v s.Version (some e)]) ∧
      ∀ ev ∈ (restore c rs v w).2,
        ev.isLocalStorage = false ∧ ev.isFileTransfer = false ∧ ev.isEngineStart = false) := by
  have hx := restore_exec c rs v w
  generalize (restore c rs v w).1 = res at *
  generalize (restore c rs v w).2 = t at *
  refine ⟨?_, ?_, ?_⟩
  · intro s0 m0 hs hm
    cases hx <;>
      simp [transferred, prepared, unlocked, compatible, fetched, fixCalls, fixStarted,
        recoverCalls, recoverStarted, mem_filesOk, fileCalls] at hs hm ⊢ <;>
      subst hs <;> simp
  · intro a b r h
    cases hx <;>
      simp [transferred, prepared, unlocked, compatible, fetched, fixCalls, fixStarted,
        recoverCalls, recoverStarted, mem_filesOk, fileCalls] at h
    all_goals
      obtain ⟨ha, hb, hr⟩ := h
      subst ha hb hr
      exact ⟨rfl, _, _, _, rfl, rfl⟩
  · intro a b e h
    cases hx <;>
      simp [transferred, prepared, unlocked, compatible, fetched, fixCalls, fixStarted,
        recoverCalls, recoverStarted, mem_filesOk, fileCalls] at h
    case compatFail s m e1 =>
      obtain ⟨ha, hb, he⟩ := h
      subst ha hb he
      refine ⟨rfl, ⟨s, m, rfl⟩, ?_⟩
      simp [fetched, Event.isLocalStorage, Event.isEngineStart, Event.isFileTransfer]

/-- C5, on the sample backup (engine version 6.0.1) restored by version 5.0.0:
the check fails and nothing but the two downloads and the check is called. -/
theorem C5_compatibility_check_arguments_and_abort_witness :
    Event.EnsureCompatibilityToRestoreMongodVersions "5.0.0" "6.0.1"
        (some (Error.base "incompatible versions")) ∈
      (restore (scripted 100) sampleService "5.0.0" 0).2 ∧
    (restore (scripted 100) sampleService "5.0.0" 0).1 =
      some (Error.base "incompatible versions") :=
  ⟨by decide,
   ((C5_compatibility_check_arguments_and_abort (scripted 100) sampleService "5.0.0" 0).2.2
      "5.0.0" "6.0.1" (Error.base "incompatible versions") (by decide)).1⟩


/-- C3: if the transfer of a manifest file `f` fails with `e` (its
`CreateReader` or its `SaveStreamToMongodFile` returns `e`), then `f` sits at
some index N of the manifest, the calls made are the preparation, the complete
transfers of the files before N in manifest order, and the failing transfer of
`f` (with the close of its reader when it had been opened); the files opened
are exactly the files 0..N, nothing is written for a later file, no engine is
started, `FixFileOwnerOfMongodData` is not called, and the returned error is
`e` wrapped with the message `bad backup file` followed by the path of `f`: its
text is that message, a colon and the text of `e`, and `e` is in its unwrap
chain, under the stack layer and the message layer that `errors.Wrap` puts
around it. -/
theorem C3_failed_transfer_aborts {σ : Type} (c : Collaborators σ) (rs : RestoreService)
    (v : String) (w : σ) (f : BackupFileMeta) (e : Error)
    (hfail : Event.CreateReader f (.error e) ∈ (restore c rs v w).2 ∨
      ∃ r, Event.SaveStreamToMongodFile r f (some e) ∈ (restore c rs v w).2) :
    ∃ (s : Backup) (m : MongodBackupFilesMetadata) (fr : List (BackupFileMeta × Reader))
      (rest : List BackupFileMeta),
      m.BackupFiles = fr.map Prod.fst ++ f :: rest ∧
      ((restore c rs v w).2 =
          prepared v s m ++ filesOk fr ++ [Event.CreateReader f (.error e)] ∨
        ∃ r, (restore c rs v w).2 =
          prepared v s m ++ filesOk fr ++
            [Event.CreateReader f (.ok r), Event.SaveStreamToMongodFile r f (some e),
             Event.LoggedClose r ("backup file reader " ++ f.Path)]) ∧
      filesOpened (restore c rs v w).2 = fr.map Prod.fst ++ [f] ∧
      filesWritten (restore c rs v w).2 <+: fr.map Prod.fst ++ [f] ∧
      (∀ ev ∈ (restore c rs v w).2, ev.isEngineStart = false) ∧
      (∀ r, Event.FixFileOwnerOfMongodData r ∉ (restore c rs v w).2) ∧
      (restore c rs v w).1 = some (Wrap e ("bad backup file " ++ f.Path)) ∧
      (Wrap e ("bad backup file " ++ f.Path)).ErrorString =
        "bad backup file " ++ f.Path ++ ": " ++ e.ErrorString ∧
      e ∈ (Wrap e ("bad backup file " ++ f.Path)).chain ∧
      (Wrap e ("bad backup file " ++ f.Path)).Unwrap =
        some (Error.withMessage e ("bad backup file " ++ f.Path)) ∧
      (Error.withMessage e ("bad backup file " ++ f.Path)).Unwrap = some e := by
  have hx := restore_exec c rs v w
  generalize (restore c rs v w).1 = res at *
  generalize (restore c rs v w).2 = t at *
  have hstart : ∀ fr0 : List (BackupFileMeta × Reader), ∀ s0 m0, ∀ ev ∈ transferred v s0 m0 fr0,
      ev.isEngineStart = false := by
    intro fr0 s0 m0 ev hev
    simp only [transferred, prepared, unlocked, compatible, fetched, List.mem_append,
      List.mem_cons, List.mem_singleton, List.not_mem_nil, or_false, mem_filesOk,
      fileCalls] at hev
    rcases hev with (((((h | h) | h) | h) | h | h | h)) | ⟨p, _, h | h | h⟩
    all_goals (subst h; rfl)
  have howner : ∀ fr0 : List (BackupFileMeta × Reader), ∀ s0 m0 r,
      Event.FixFileOwnerOfMongodData r ∉ transferred v s0 m0 fr0 := by
    intro fr0 s0 m0 r
    simp [transferred, prepared, unlocked, compatible, fetched, mem_filesOk, fileCalls]
  cases hx <;>
    simp [transferred, prepared, unlocked, compatible, fetched, fixCalls, fixStarted,
      recoverCalls, recoverStarted, mem_filesOk, fileCalls] at hfail
  case readerFail s m fr f1 rest e1 h =>
    obtain ⟨hf, he⟩ := hfail
    subst hf he
    refine ⟨s, m, fr, rest, h, Or.inl rfl, ?_, ?_, ?_, ?_, rfl, rfl,
      by simp [Wrap, Error.chain, mem_chain_self], rfl, rfl⟩
    · simp only [filesOpened, List.filterMap_append]
      have h1 := filesOpened_transferred v s m fr
      simp only [filesOpened] at h1
      rw [h1]
      rfl
    · simp only [filesWritten, List.filterMap_append]
      have h1 := filesWritten_transferred v s m fr
      simp only [filesWritten] at h1
      rw [h1]
      simp [Event.writtenFile]
    · intro ev hev
      rcases List.mem_append.1 hev with hev | hev
      · exact hstart fr s m ev hev
      · simp only [List.mem_singleton] at hev; subst hev; rfl
    · intro r hr
      rcases List.mem_append.1 hr with hr | hr
      · exact howner fr s m r hr
      · simp at hr
  case saveFail s m fr f1 rest r e1 h =>
    obtain ⟨hf, he⟩ := hfail
    subst hf he
    refine ⟨s, m, fr, rest, h, Or.inr ⟨r, rfl⟩, ?_, ?_, ?_, ?_, rfl, rfl,
      by simp [Wrap, Error.chain, mem_chain_self], rfl, rfl⟩
    · simp only [filesOpened, List.filterMap_append]
      have h1 := filesOpened_transferred v s m fr
      simp only [filesOpened] at h1
      rw [h1]
      rfl
    · simp only [filesWritten, List.filterMap_append]
      have h1 := filesWritten_transferred v s m fr
      simp only [filesWritten] at h1
      rw [h1]
      simp [fileCalls, Event.writtenFile]
    · intro ev hev
      rcases List.mem_append.1 hev with hev | hev
      · exact hstart fr s m ev hev
      · simp only [fileCalls, List.mem_cons, List.mem_singleton, List.not_mem_nil,
          or_false] at hev
        rcases hev with hev | hev | hev <;> subst hev <;> rfl
    · intro r hr
      rcases List.mem_append.1 hr with hr | hr
      · exact howner fr s m r hr
      · simp [fileCalls] at hr


/-- C3, on the sample backup when the reader of the second file (call number
10) cannot be opened. -/
theorem C3_failed_transfer_aborts_witness :
    (Event.CreateReader ⟨"journal/log1", 512⟩ (.error (Error.base "no such object")) ∈
        (restore (scripted 10) sampleService "6.0.1" 0).2 ∨
      ∃ r, Event.SaveStreamToMongodFile r ⟨"journal/log1", 512⟩
        (some (Error.base "no such object")) ∈
          (restore (scripted 10) sampleService "6.0.1" 0).2) ∧
    ∃ (m : MongodBackupFilesMetadata) (fr : List (BackupFileMeta × Reader))
      (rest : List BackupFileMeta),
      m.BackupFiles = fr.map Prod.fst ++ (⟨"journal/log1", 512⟩ : BackupFileMeta) :: rest ∧
      (restore (scripted 10) sampleService "6.0.1" 0).1 =
        some (Wrap (Error.base "no such object") "bad backup file journal/log1") := by
  have hfail : Event.CreateReader ⟨"journal/log1", 512⟩ (.error (Error.base "no such object")) ∈
      (restore (scripted 10) sampleService "6.0.1" 0).2 := by decide
  obtain ⟨_, m, fr, rest, h1, _, _, _, _, _, h7, _, _, _, _⟩ :=
    C3_failed_transfer_aborts (scripted 10) sampleService "6.0.1" 0 ⟨"journal/log1", 512⟩
      (Error.base "no such object") (Or.inl hfail)
  exact ⟨Or.inl hfail, m, fr, rest, h1, h7⟩

/-- C6: `DownloadFileFromBackup` on a file whose reader opens makes exactly the
calls `CreateReader`, `SaveStreamToMongodFile` on that reader and one close of
that reader, in this order, whether the save fails or not, and returns exactly
what `SaveStreamToMongodFile` returned; when `CreateReader` fails it makes no
other call and returns the error of `CreateReader`. -/
theorem C6_reader_closed_exactly_once {σ : Type} (c : Collaborators σ) (f : BackupFileMeta)
    (st : State σ) :
    (∀ r w1, c.CreateReader f st.world = (.ok r, w1) →
      (DownloadFileFromBackup c f st).1 = (c.SaveStreamToMongodFile r f w1).1 ∧
      (DownloadFileFromBackup c f st).2.trace = st.trace ++
        [Event.CreateReader f (.ok r),
         Event.SaveStreamToMongodFile r f (c.SaveStreamToMongodFile r f w1).1,
         Event.LoggedClose r ("backup file reader " ++ f.Path)] ∧
      (DownloadFileFromBackup c f st).2.world =
        c.LoggedClose r ("backup file reader " ++ f.Path) (c.SaveStreamToMongodFile r f w1).2) ∧
    (∀ e w1, c.CreateReader f st.world = (.error e, w1) →
      (DownloadFileFromBackup c f st).1 = some e ∧
      (DownloadFileFromBackup c f st).2.trace = st.trace ++ [Event.CreateReader f (.error e)] ∧
      (DownloadFileFromBackup c f st).2.world = w1) := by
  constructor
  · intro r w1 h
    simp [DownloadFileFromBackup, perform, performUnit, h]
  · intro e w1 h
    simp [DownloadFileFromBackup, perform, h]

/-- C6, on the first sample file: once in a world where the save fails (the
reader is closed all the same), once in a world where the reader cannot be
opened. -/
theorem C6_reader_closed_exactly_once_witness :
    ((DownloadFileFromBackup (scripted 1) ⟨"data.wt", 4096⟩ ⟨0, []⟩).1 =
        some (Error.base "short write") ∧
      (DownloadFileFromBackup (scripted 1) ⟨"data.wt", 4096⟩ ⟨0, []⟩).2.trace =
        [Event.CreateReader ⟨"data.wt", 4096⟩ (.ok ⟨0⟩),
         Event.SaveStreamToMongodFile ⟨0⟩ ⟨"data.wt", 4096⟩ (some (Error.base "short write")),
         Event.LoggedClose ⟨0⟩ "backup file reader data.wt"]) ∧
    ((DownloadFileFromBackup (scripted 0) ⟨"data.wt", 4096⟩ ⟨0, []⟩).1 =
        some (Error.base "no such object") ∧
      (DownloadFileFromBackup (scripted 0) ⟨"data.wt", 4096⟩ ⟨0, []⟩).2.trace =
        [Event.CreateReader ⟨"data.wt", 4096⟩ (.error (Error.base "no such object"))]) := by
  have h := C6_reader_closed_exactly_once (scripted 1) ⟨"data.wt", 4096⟩ ⟨0, []⟩
  have h0 := C6_reader_closed_exactly_once (scripted 0) ⟨"data.wt", 4096⟩ ⟨0, []⟩
  obtain ⟨h1, h2, _⟩ := h.1 ⟨0⟩ 1 rfl
  obtain ⟨h3, h4, _⟩ := h0.2 (Error.base "no such object") 1 rfl
  exact ⟨⟨h1, h2⟩, ⟨h3, h4⟩⟩

/-- C7, as stated, fails: when the lock-file check fails, the error returned is
the bare error of the check, with no context around it. -/
theorem C7_counterexample :
    restore (scripted 3) sampleService "6.0.1" 0 =
      (some (Error.base "mongod.lock is not empty"),
       [Event.DownloadSentinel (.ok sampleSentinel),
        Event.DownloadMongodBackupFilesMetadata (.ok sampleManifest),
        Event.EnsureCompatibilityToRestoreMongodVersions "6.0.1" "6.0.1" none,
        Event.EnsureMongodFsLockFileIsEmpty (some (Error.base "mongod.lock is not empty"))]) ∧
    ¬ FailuresWrapped (restore (scripted 3) sampleService "6.0.1" 0).1
        (restore (scripted 3) sampleService "6.0.1" 0).2 := by
  refine ⟨rfl, ?_⟩
  intro h
  obtain ⟨context, hc⟩ := h
    (Event.EnsureMongodFsLockFileIsEmpty (some (Error.base "mongod.lock is not empty")))
    (by decide) (Error.base "mongod.lock is not empty") rfl
  have hr : (restore (scripted 3) sampleService "6.0.1" 0).1 =
      some (Error.base "mongod.lock is not empty") := rfl
  rw [hr] at hc
  simp [Wrap] at hc

/-- C7, amended: when a call of `DoRestore` returns an error `e`, `DoRestore`
returns `e` itself, with nothing around it, unless the call is a file transfer
call (then `e` wrapped with `bad backup file` and the path), an engine start
(`e` wrapped with `unable to start mongod in special mode`) or a service
creation (`e` wrapped with `unable to create mongod service`); in every case
`e` is in the unwrap chain of the returned error. -/
theorem C7_error_returned_for_failed_call {σ : Type} (c : Collaborators σ)
    (rs : RestoreService) (v : String) (w : σ) (ev : Event) (e : Error)
    (hev : ev ∈ (restore c rs v w).2) (he : ev.failure = some e) :
    (restore c rs v w).1 = some (returnedFor ev e) ∧
    e ∈ (returnedFor ev e).chain ∧
    (ev.isFileTransfer = false → ev.isEngineStart = false →
      (∀ ctx app uri r, ev ≠ Event.CreateMongodService ctx app uri r) →
      (restore c rs v w).1 = some e) := by
  have h := exec_failure_mem (restore_exec c rs v w) hev he
  refine ⟨h, mem_chain_returnedFor ev e, ?_⟩
  intro h1 h2 h3
  rw [h]
  cases ev <;> first
    | exact absurd rfl (h3 _ _ _ _)
    | simp_all [returnedFor, Event.isFileTransfer, Event.isEngineStart]

/-- C7 amended, on the sample backup: a failed `Shutdown` of the first engine
stage (call number 16) is returned as it is, a failed engine start is
wrapped. -/
theorem C7_error_returned_for_failed_call_witness :
    (restore (scripted 16) sampleService "6.0.1" 0).1 = some (Error.base "shutdown failed") ∧
    (restore (scripted 13) sampleService "6.0.1" 0).1 =
      some (Wrap (Error.base "exec failed") "unable to start mongod in special mode") :=
  ⟨(C7_error_returned_for_failed_call (scripted 16) sampleService "6.0.1" 0
      (Event.Shutdown ⟨14⟩ (some (Error.base "shutdown failed")))
      (Error.base "shutdown failed") (by decide) rfl).1,
   (C7_error_returned_for_failed_call (scripted 13) sampleService "6.0.1" 0
      (Event.StartMongodWithDisableLogicalSessionCacheRefresh "/etc/mongod-minimal.conf"
        (.error (Error.base "exec failed")))
      (Error.base "exec failed") (by decide) rfl).1⟩


/-- C10: a restore fails fast and retries nothing.  A call that returns an error
is the first and only call to do so; after it no call is made, except the close
of the reader when the failed call is the `SaveStreamToMongodFile` on a reader
just opened; and the error returned is not nil and has the failure in its
unwrap chain.  Hence nil is returned exactly when every call made succeeded,
`FixFileOwnerOfMongodData` is called exactly when every other call made
succeeded, and a failed download of the sentinel or of the manifest leaves
every `LocalStorage` operation uncalled. -/
theorem C10_fail_fast_no_retry {σ : Type} (c : Collaborators σ) (rs : RestoreService)
    (v : String) (w : σ) :
    (∀ pre ev post e, (restore c rs v w).2 = pre ++ ev :: post → ev.failure = some e →
      (∀ x ∈ pre, x.failure = none) ∧
      (post = [] ∨ ∃ r f, ev = Event.SaveStreamToMongodFile r f (some e) ∧
        post = [Event.LoggedClose r ("backup file reader " ++ f.Path)] ∧
        ∃ pre0, pre = pre0 ++ [Event.CreateReader f (.ok r)]) ∧
      ∃ err, (restore c rs v w).1 = some err ∧ e ∈ err.chain) ∧
    ((restore c rs v w).1 = none ↔ ∀ ev ∈ (restore c rs v w).2, ev.failure = none) ∧
    ((∃ r, Event.FixFileOwnerOfMongodData r ∈ (restore c rs v w).2) ↔
      ∀ ev ∈ (restore c rs v w).2,
        ev.failure = none ∨ ∃ r, ev = Event.FixFileOwnerOfMongodData r) ∧
    (∀ e, Event.DownloadSentinel (.error e) ∈ (restore c rs v w).2 ∨
        Event.DownloadMongodBackupFilesMetadata (.error e) ∈ (restore c rs v w).2 →
      ∀ ev ∈ (restore c rs v w).2, ev.isLocalStorage = false) := by
  have hx := restore_exec c rs v w
  generalize (restore c rs v w).1 = res at *
  generalize (restore c rs v w).2 = t at *
  refine ⟨?_, ?_, ?_, ?_⟩
  · intro pre ev post e ht he
    obtain ⟨h1, h2, h3⟩ := exec_failure_at hx ht he
    exact ⟨h1, h3, _, h2, mem_chain_returnedFor ev e⟩
  · constructor
    · intro hnone ev hev
      cases hf : ev.failure with
      | none => rfl
      | some e =>
        have := exec_failure_mem hx hev hf
        rw [hnone] at this
        exact absurd this (by simp)
    · intro hall
      rcases exec_outcome hx with ⟨h, _⟩ | ⟨pre, ev, e, post, ht, _, he, _, _⟩
      · exact h
      · have := hall ev (by rw [ht]; simp)
        rw [he] at this
        exact absurd this (by simp)
  · constructor
    · rintro ⟨r, hr⟩ ev hev
      obtain ⟨pre, ht, hpre⟩ := exec_owner_last hx r hr
      rw [ht] at hev
      rcases List.mem_append.1 hev with h | h
      · exact Or.inl (hpre ev h)
      · exact Or.inr ⟨res, by simpa using h⟩
    · intro hall
      rcases exec_outcome hx with ⟨h, _⟩ | ⟨pre, ev, e, post, ht, _, he, _, _⟩
      · subst h
        exact ⟨none, exec_owner_of_none hx⟩
      · have hmem : ev ∈ t := by rw [ht]; simp
        rcases hall ev hmem with h | ⟨r, h⟩
        · rw [he] at h
          exact absurd h (by simp)
        · exact ⟨r, h ▸ hmem⟩
  · intro e h
    cases hx <;>
      simp [transferred, prepared, unlocked, compatible, fetched, fixCalls, fixStarted,
        recoverCalls, recoverStarted, mem_filesOk, fileCalls] at h
    all_goals simp [Event.isLocalStorage]

/-- C10, on the sample backup when the manifest download (call number 1) fails:
the failure is returned and no `LocalStorage` operation has been called. -/
theorem C10_fail_fast_no_retry_witness :
    Event.DownloadMongodBackupFilesMetadata (.error (Error.base "manifest unavailable")) ∈
      (restore (scripted 1) sampleService "6.0.1" 0).2 ∧
    (∀ ev ∈ (restore (scripted 1) sampleService "6.0.1" 0).2, ev.isLocalStorage = false) ∧
    ∃ err, (restore (scripted 1) sampleService "6.0.1" 0).1 = some err ∧
      Error.base "manifest unavailable" ∈ err.chain := by
  have h := C10_fail_fast_no_retry (scripted 1) sampleService "6.0.1" 0
  have hm : Event.DownloadMongodBackupFilesMetadata
      (.error (Error.base "manifest unavailable")) ∈
      (restore (scripted 1) sampleService "6.0.1" 0).2 := by decide
  exact ⟨hm, h.2.2.2 _ (Or.inr hm),
    (h.1 [Event.DownloadSentinel (.ok sampleSentinel)]
      (Event.DownloadMongodBackupFilesMetadata (.error (Error.base "manifest unavailable")))
      [] (Error.base "manifest unavailable") rfl rfl).2.2⟩


/-- C8: in every restore, whatever fails, the data directory has one owner at a
time.  The engine in recover-from-oplog-as-standalone mode is started only
right after the `Wait` on the first engine handle has returned nil; after every
call of the trace at most one started process has not been waited on; and no
`LocalStorage` write (`CleanupMongodDBPath`, `CreateDirectories`,
`SaveStreamToMongodFile`) is made after an engine start. -/
theorem C8_single_owner_of_data_directory {σ : Type} (c : Collaborators σ)
    (rs : RestoreService) (v : String) (w : σ) :
    (∀ pre cfg r post,
      (restore c rs v w).2 =
        pre ++ Event.StartMongodWithRecoverFromOplogAsStandalone cfg r :: post →
      ∃ pre0 p1 svc1 ts,
        pre = pre0 ++
          [Event.StartMongodWithDisableLogicalSessionCacheRefresh rs.minimalConfigPath (.ok p1),
           Event.CreateMongodService rs.Context "wal-g restore" p1.GetURI (.ok svc1),
           Event.FixSystemDataAfterRestore svc1 ts none,
           Event.Shutdown svc1 none,
           Event.Wait p1 none] ∧
        ∀ x ∈ pre0, x.isEngineStart = false) ∧
    (∀ pre, pre <+: (restore c rs v w).2 → engineStarted pre ≤ engineWaited pre + 1) ∧
    (∀ pre ev post, (restore c rs v w).2 = pre ++ ev :: post → ev.isEngineStart = true →
      ∀ x ∈ post, x.isLocalStorageWrite = false) := by
  have hx := restore_exec c rs v w
  generalize (restore c rs v w).1 = res at *
  generalize (restore c rs v w).2 = t at *
  obtain ⟨A, B, s, ht, hA, hB⟩ := exec_engine_split hx
  subst ht
  have hAstart : ∀ x ∈ A, x.isEngineStart = false := by
    intro x hx
    exact (not_started_of_not_engine (hA x hx).1).2.2
  refine ⟨?_, ?_, ?_⟩
  · intro pre cfg r post hsplit
    obtain ⟨t1, hpre, hB1⟩ := append_split (fun x : Event => x.isEngine = true)
      (fun a ha => by simp [(hA a ha).1]) (by rfl) hsplit
    subst hpre
    cases hB <;>
      simp [fixCalls, fixStarted, recoverCalls, recoverStarted, List.cons_eq_append_iff,
        List.nil_eq_append_iff] at hB1
    all_goals
      casesm* Exists _, And _ _
      subst_vars
      exact ⟨A, _, _, _, rfl, hAstart⟩
  · intro pre hpre
    have hcount : ∀ l : List Event, (∀ x ∈ l, x ∈ A) →
        engineStarted l = 0 ∧ engineWaited l = 0 := by
      intro l hl
      simp only [engineStarted, engineWaited, List.countP_eq_zero]
      constructor <;> intro x hx <;>
        have := not_started_of_not_engine (hA x (hl x hx)).1
      · simp [this.1]
      · simp [this.2.1]
    have hown : prefixesOwned 0 0 B = true := by
      cases hB <;> rfl
    rcases prefix_append_cases hpre with h | ⟨t1, h1, h2⟩
    · have := hcount pre (fun x hx => h.subset hx)
      omega
    · subst h1
      have h0 := hcount A (fun x hx => hx)
      have := prefixesOwned_sound B 0 0 hown (by omega) t1 h2
      simp only [engineStarted, engineWaited, List.countP_append] at this h0 ⊢
      omega
  · intro pre ev post hsplit hev x hxp
    have hevE : ev.isEngine = true := by
      cases ev <;> first
        | rfl
        | simp [Event.isEngineStart] at hev
    obtain ⟨t1, hpre, hB1⟩ := append_split (fun x : Event => x.isEngine = true)
      (fun a ha => by simp [(hA a ha).1]) hevE hsplit
    have hxB : x ∈ B :=
      hB1 ▸ List.mem_append_right t1 (List.mem_cons_of_mem ev hxp)
    have hBw : ∀ y ∈ B, y.isLocalStorageWrite = false := by
      cases hB <;>
        simp [fixCalls, fixStarted, recoverCalls, recoverStarted, Event.isLocalStorageWrite]
    exact hBw x hxB


/-- C8, on the sample backup when the `Shutdown` of the first engine stage (call
number 16) fails: one process is started and not waited on, never two. -/
theorem C8_single_owner_of_data_directory_witness :
    (restore (scripted 16) sampleService "6.0.1" 0).2 <+:
      (restore (scripted 16) sampleService "6.0.1" 0).2 ∧
    engineStarted (restore (scripted 16) sampleService "6.0.1" 0).2 ≤
      engineWaited (restore (scripted 16) sampleService "6.0.1" 0).2 + 1 :=
  ⟨List.prefix_refl _,
   (C8_single_owner_of_data_directory (scripted 16) sampleService "6.0.1" 0).2.1 _
     (List.prefix_refl _)⟩

/-- C9: in both engine stages `Wait` on a process handle is called only right
after `Shutdown` has returned nil on the service created on the URI of that
handle.  In `fixSystemData` that `Shutdown` is called only right after
`FixSystemDataAfterRestore` has returned nil on the same service; in
`recoverFromOplogAsStandalone` it is called right after the service creation and
no other call on a service follows it. -/
theorem C9_wait_only_after_successful_shutdown {σ : Type} (c : Collaborators σ)
    (rs : RestoreService) (v : String) (w : σ) :
    (∀ pre p r post, (restore c rs v w).2 = pre ++ Event.Wait p r :: post →
      ∃ pre0 svc,
        (∃ ts, pre = pre0 ++
          [Event.StartMongodWithDisableLogicalSessionCacheRefresh rs.minimalConfigPath (.ok p),
           Event.CreateMongodService rs.Context "wal-g restore" p.GetURI (.ok svc),
           Event.FixSystemDataAfterRestore svc ts none,
           Event.Shutdown svc none]) ∨
        pre = pre0 ++
          [Event.StartMongodWithRecoverFromOplogAsStandalone rs.minimalConfigPath (.ok p),
           Event.CreateMongodService rs.Context "wal-g restore" p.GetURI (.ok svc),
           Event.Shutdown svc none]) ∧
    (∀ pre svc r post, (restore c rs v w).2 = pre ++ Event.Shutdown svc r :: post →
      ∃ pre0 p,
        (∃ ts, pre = pre0 ++
          [Event.StartMongodWithDisableLogicalSessionCacheRefresh rs.minimalConfigPath (.ok p),
           Event.CreateMongodService rs.Context "wal-g restore" p.GetURI (.ok svc),
           Event.FixSystemDataAfterRestore svc ts none]) ∨
        (pre = pre0 ++
          [Event.StartMongodWithRecoverFromOplogAsStandalone rs.minimalConfigPath (.ok p),
           Event.CreateMongodService rs.Context "wal-g restore" p.GetURI (.ok svc)] ∧
          ∀ x ∈ post, x.isAdminCall = false)) := by
  have hx := restore_exec c rs v w
  generalize (restore c rs v w).1 = res at *
  generalize (restore c rs v w).2 = t at *
  obtain ⟨A, B, s, ht, hA, hB⟩ := exec_engine_split hx
  subst ht
  refine ⟨?_, ?_⟩
  · intro pre p r post hsplit
    obtain ⟨t1, hpre, hB1⟩ := append_split (fun x : Event => x.isEngine = true)
      (fun a ha => by simp [(hA a ha).1]) (by rfl) hsplit
    subst hpre
    cases hB <;>
      simp [fixCalls, fixStarted, recoverCalls, recoverStarted, List.cons_eq_append_iff,
        List.nil_eq_append_iff] at hB1
    all_goals
      casesm* Exists _, And _ _, Or _ _
      all_goals
        subst_vars
        first
          | exact ⟨A, _, Or.inl ⟨_, rfl⟩⟩
          | exact ⟨A ++ [_, _, _, _, _], _,
              Or.inr (List.append_assoc A [_, _, _, _, _] [_, _, _]).symm⟩
  · intro pre svc r post hsplit
    obtain ⟨t1, hpre, hB1⟩ := append_split (fun x : Event => x.isEngine = true)
      (fun a ha => by simp [(hA a ha).1]) (by rfl) hsplit
    subst hpre
    cases hB <;>
      simp [fixCalls, fixStarted, recoverCalls, recoverStarted, List.cons_eq_append_iff,
        List.nil_eq_append_iff] at hB1
    all_goals
      casesm* Exists _, And _ _, Or _ _
      all_goals
        subst_vars
        first
          | exact ⟨A, _, Or.inl ⟨_, rfl⟩⟩
          | exact ⟨A ++ [_, _, _, _, _], _,
              Or.inr ⟨(List.append_assoc A [_, _, _, _, _] [_, _]).symm,
                by simp [Event.isAdminCall]⟩⟩


/-- C9, on the sample backup when the `Wait` of the first engine stage (call
number 17) fails: that `Wait` comes right after the successful `Shutdown`. -/
theorem C9_wait_only_after_successful_shutdown_witness :
    (restore (scripted 17) sampleService "6.0.1" 0).2 =
      List.take 17 (restore (scripted 17) sampleService "6.0.1" 0).2 ++
        Event.Wait ⟨13, "mongodb://localhost:27018"⟩ (some (Error.base "exit status 1")) :: [] ∧
    ∃ pre0 svc,
      (∃ ts, List.take 17 (restore (scripted 17) sampleService "6.0.1" 0).2 = pre0 ++
        [Event.StartMongodWithDisableLogicalSessionCacheRefresh sampleService.minimalConfigPath
           (.ok ⟨13, "mongodb://localhost:27018"⟩),
         Event.CreateMongodService sampleService.Context "wal-g restore"
           (MongodProcess.GetURI ⟨13, "mongodb://localhost:27018"⟩) (.ok svc),
         Event.FixSystemDataAfterRestore svc ts none,
         Event.Shutdown svc none]) ∨
      List.take 17 (restore (scripted 17) sampleService "6.0.1" 0).2 = pre0 ++
        [Event.StartMongodWithRecoverFromOplogAsStandalone sampleService.minimalConfigPath
           (.ok ⟨13, "mongodb://localhost:27018"⟩),
         Event.CreateMongodService sampleService.Context "wal-g restore"
           (MongodProcess.GetURI ⟨13, "mongodb://localhost:27018"⟩) (.ok svc),
         Event.Shutdown svc none] :=
  ⟨rfl, (C9_wait_only_after_successful_shutdown (scripted 17) sampleService "6.0.1" 0).1
    _ _ _ _ rfl⟩

/-- C2, as stated, fails: when the service creation of the first engine stage
(call number 14) fails, `DoRestore` returns with the started process neither
shut down nor waited on. -/
theorem C2_counterexample :
    restore (scripted 14) sampleService "6.0.1" 0 =
      (some (Wrap (Error.base "connection refused") "unable to create mongod service"),
       prepared "6.0.1" sampleSentinel sampleManifest ++
       filesOk [(⟨"data.wt", 4096⟩, ⟨7⟩), (⟨"journal/log1", 512⟩, ⟨10⟩)] ++
       [Event.StartMongodWithDisableLogicalSessionCacheRefresh "/etc/mongod-minimal.conf"
          (.ok ⟨13, "mongodb://localhost:27018"⟩),
        Event.CreateMongodService ⟨0⟩ "wal-g restore" "mongodb://localhost:27018"
          (.error (Error.base "connection refused"))]) ∧
    waitsOn ⟨13, "mongodb://localhost:27018"⟩
      (restore (scripted 14) sampleService "6.0.1" 0).2 = 0 ∧
    ¬ HandlesReleased (restore (scripted 14) sampleService "6.0.1" 0).2 := by
  refine ⟨rfl, by decide, ?_⟩
  intro h
  have h1 := (h "/etc/mongod-minimal.conf" ⟨13, "mongodb://localhost:27018"⟩
    (Or.inl (by decide))).1
  have h0 : waitsOn ⟨13, "mongodb://localhost:27018"⟩
      (restore (scripted 14) sampleService "6.0.1" 0).2 = 0 := by decide
  rw [h0] at h1
  exact absurd h1 (by decide)

/-- C2, amended: a started engine process is shut down and waited on exactly
once before anything else happens when the calls of its stage up to `Shutdown`
succeed; otherwise `DoRestore` returns at the failed call, with neither
`Shutdown` nor `Wait` called when the service creation or
`FixSystemDataAfterRestore` failed, and with `Wait` not called when `Shutdown`
failed.  This holds for the process of `fixSystemData` and for the process of
`recoverFromOplogAsStandalone`. -/
theorem C2_handle_released_only_when_stage_succeeds {σ : Type} (c : Collaborators σ)
    (rs : RestoreService) (v : String) (w : σ) :
    (∀ pre cfg p post,
      (restore c rs v w).2 =
        pre ++ Event.StartMongodWithDisableLogicalSessionCacheRefresh cfg (.ok p) :: post →
      ∃ ts,
        (∃ e, post = [Event.CreateMongodService rs.Context "wal-g restore" p.GetURI (.error e)]) ∨
        (∃ svc e, post =
          [Event.CreateMongodService rs.Context "wal-g restore" p.GetURI (.ok svc),
           Event.FixSystemDataAfterRestore svc ts (some e)]) ∨
        (∃ svc e, post =
          [Event.CreateMongodService rs.Context "wal-g restore" p.GetURI (.ok svc),
           Event.FixSystemDataAfterRestore svc ts none,
           Event.Shutdown svc (some e)]) ∨
        (∃ svc r rest, post =
          [Event.CreateMongodService rs.Context "wal-g restore" p.GetURI (.ok svc),
           Event.FixSystemDataAfterRestore svc ts none,
           Event.Shutdown svc none,
           Event.Wait p r] ++ rest ∧
          ((∃ e, r = some e ∧ rest = []) ∨
            (r = none ∧ ∃ r2 rest2, rest =
              Event.StartMongodWithRecoverFromOplogAsStandalone rs.minimalConfigPath r2 ::
                rest2)))) ∧
    (∀ pre cfg p post,
      (restore c rs v w).2 =
        pre ++ Event.StartMongodWithRecoverFromOplogAsStandalone cfg (.ok p) :: post →
      (∃ e, post = [Event.CreateMongodService rs.Context "wal-g restore" p.GetURI (.error e)]) ∨
      (∃ svc e, post =
        [Event.CreateMongodService rs.Context "wal-g restore" p.GetURI (.ok svc),
         Event.Shutdown svc (some e)]) ∨
      (∃ svc r rest, post =
        [Event.CreateMongodService rs.Context "wal-g restore" p.GetURI (.ok svc),
         Event.Shutdown svc none,
         Event.Wait p r] ++ rest ∧
        ((∃ e, r = some e ∧ rest = []) ∨
          (r = none ∧ ∃ r2, rest = [Event.FixFileOwnerOfMongodData r2])))) := by
  have hx := restore_exec c rs v w
  generalize (restore c rs v w).1 = res at *
  generalize (restore c rs v w).2 = t at *
  obtain ⟨A, B, s, ht, hA, hB⟩ := exec_engine_split hx
  subst ht
  refine ⟨?_, ?_⟩
  · intro pre cfg p post hsplit
    obtain ⟨t1, hpre, hB1⟩ := append_split (fun x : Event => x.isEngine = true)
      (fun a ha => by simp [(hA a ha).1]) (by rfl) hsplit
    subst hpre
    refine ⟨s.BackupLastTS, ?_⟩
    cases hB <;>
      simp [fixCalls, fixStarted, recoverCalls, recoverStarted, List.cons_eq_append_iff,
        List.nil_eq_append_iff] at hB1
    all_goals
      casesm* Exists _, And _ _, Or _ _
      all_goals
        subst_vars
        first
          | exact Or.inl ⟨_, rfl⟩
          | exact Or.inr (Or.inl ⟨_, _, rfl⟩)
          | exact Or.inr (Or.inr (Or.inl ⟨_, _, rfl⟩))
          | exact Or.inr (Or.inr (Or.inr ⟨_, _, _, rfl, Or.inl ⟨_, rfl, rfl⟩⟩))
          | exact Or.inr (Or.inr (Or.inr ⟨_, _, _, rfl, Or.inr ⟨rfl, _, _, rfl⟩⟩))
  · intro pre cfg p post hsplit
    obtain ⟨t1, hpre, hB1⟩ := append_split (fun x : Event => x.isEngine = true)
      (fun a ha => by simp [(hA a ha).1]) (by rfl) hsplit
    subst hpre
    cases hB <;>
      simp [fixCalls, fixStarted, recoverCalls, recoverStarted, List.cons_eq_append_iff,
        List.nil_eq_append_iff] at hB1
    all_goals
      casesm* Exists _, And _ _, Or _ _
      all_goals
        subst_vars
        first
          | exact Or.inl ⟨_, rfl⟩
          | exact Or.inr (Or.inl ⟨_, _, rfl⟩)
          | exact Or.inr (Or.inr ⟨_, _, _, rfl, Or.inl ⟨_, rfl, rfl⟩⟩)
          | exact Or.inr (Or.inr ⟨_, _, _, rfl, Or.inr ⟨rfl, _, rfl⟩⟩)


/-- C2 amended, on the sample backup when the `Shutdown` of the first engine
stage (call number 16) fails: the calls after the engine start are the service
creation, `FixSystemDataAfterRestore` and the failed `Shutdown`, and no `Wait`. -/
theorem C2_handle_released_only_when_stage_succeeds_witness :
    (restore (scripted 16) sampleService "6.0.1" 0).2 =
      List.take 13 (restore (scripted 16) sampleService "6.0.1" 0).2 ++
        Event.StartMongodWithDisableLogicalSessionCacheRefresh "/etc/mongod-minimal.conf"
          (.ok ⟨13, "mongodb://localhost:27018"⟩) ::
        List.drop 14 (restore (scripted 16) sampleService "6.0.1" 0).2 ∧
    ∃ ts,
      (∃ e, List.drop 14 (restore (scripted 16) sampleService "6.0.1" 0).2 =
        [Event.CreateMongodService sampleService.Context "wal-g restore"
          (MongodProcess.GetURI ⟨13, "mongodb://localhost:27018"⟩) (.error e)]) ∨
      (∃ svc e, List.drop 14 (restore (scripted 16) sampleService "6.0.1" 0).2 =
        [Event.CreateMongodService sampleService.Context "wal-g restore"
          (MongodProcess.GetURI ⟨13, "mongodb://localhost:27018"⟩) (.ok svc),
         Event.FixSystemDataAfterRestore svc ts (some e)]) ∨
      (∃ svc e, List.drop 14 (restore (scripted 16) sampleService "6.0.1" 0).2 =
        [Event.CreateMongodService sampleService.Context "wal-g restore"
          (MongodProcess.GetURI ⟨13, "mongodb://localhost:27018"⟩) (.ok svc),
         Event.FixSystemDataAfterRestore svc ts none,
         Event.Shutdown svc (some e)]) ∨
      (∃ svc r rest, List.drop 14 (restore (scripted 16) sampleService "6.0.1" 0).2 =
        [Event.CreateMongodService sampleService.Context "wal-g restore"
          (MongodProcess.GetURI ⟨13, "mongodb://localhost:27018"⟩) (.ok svc),
         Event.FixSystemDataAfterRestore svc ts none,
         Event.Shutdown svc none,
         Event.Wait ⟨13, "mongodb://localhost:27018"⟩ r] ++ rest ∧
        ((∃ e, r = some e ∧ rest = []) ∨
          (r = none ∧ ∃ r2 rest2, rest =
            Event.StartMongodWithRecoverFromOplogAsStandalone sampleService.minimalConfigPath
              r2 :: rest2))) :=
  ⟨rfl, (C2_handle_released_only_when_stage_succeeds (scripted 16) sampleService "6.0.1"
    0).1 (List.take 13 (restore (scripted 16) sampleService "6.0.1" 0).2)
    "/etc/mongod-minimal.conf" ⟨13, "mongodb://localhost:27018"⟩
    (List.drop 14 (restore (scripted 16) sampleService "6.0.1" 0).2) rfl⟩

end WalG
